import Mathlib

/-!
# Verification of the sc-vending session / dispense pipeline

Shallow embedding of the backend cloud functions
(`src/firebase/functions/src/index.ts`), the client basket operations
(`src/client-app/src/contexts/SessionContext.tsx`,
`src/client-app/src/pages/ShoppingPage.tsx`) and the kiosk dispense
controller retry loop
(`src/vending-app/lib/screens/dispensing_screen.dart`).

Firestore is modelled as an explicit `DB` value; each handler is a pure
function from a `DB` (plus its request arguments and the server clock) to a
result together with the resulting `DB`.  A handler stages its writes and
applies them only at the single batch commit, exactly as the source does;
every error branch returns the input `DB` unchanged unless the source
committed before throwing.  Document ids generated by Firestore are
modelled by a `nextEventId` counter.  Timestamps are `Nat` milliseconds.
UI-only session fields (`qrCodeData`, `payments`) play no role in any
claim and are omitted from the record.
-/

namespace SCVending

/-- One basket line, as stored in `session.basket`
(`BasketItem` in `src/vending-app/lib/models/session.dart` and
`src/client-app/src/types/index.ts`). -/
structure BasketItem where
  productId : String
  productName : String
  quantity : Nat
  price : Int
  slot : Int
deriving DecidableEq, Repr

/-- One entry of `session.dispensedItems`, as written by `confirmDispense`
(index.ts lines 297-302). -/
structure DispensedItem where
  productId : String
  slot : Int
  status : String   -- "pending" | "dispensed" | "failed"
  timestamp : Nat
deriving DecidableEq, Repr

/-- The session document (collection `sessions`). -/
structure Session where
  vendingMachineId : String
  status : String   -- "active" | "completed" | "expired" | "cancelled"
  basket : List BasketItem
  totalAmount : Int
  dispensedItems : List DispensedItem
  createdAt : Nat
  expiresAt : Nat
  completedAt : Option Nat
  extendedCount : Nat
deriving DecidableEq, Repr

/-- Typed event payloads (the source stores untyped maps whose shape is
fixed per `type`; index.ts lines 90-97, 208-240, 320-358, 395-407, 440-449). -/
inductive Payload where
  | sessionCreated (sessionId : String)
  | paymentReceived (transactionId : String) (amount : Int)
  | productDispatch (productId productName : String) (slot : Int) (price : Int)
  | dispenseOutcome (productId : String) (slot : Int)
  | stockLow (productId : String) (quantity : Int)
  | refundRequested (productId productName : String) (slot : Int)
      (refundAmount : Int) (reason : String)
  | sessionExpired (sessionId : String)
deriving DecidableEq, Repr

/-- An event document (collection `events`).  `sequenceNumber` is only set
on `ProductDispatch` events created by the checkout batch. -/
structure Event where
  id : Nat
  type : String
  sessionId : String
  vendingMachineId : String
  payload : Payload
  timestamp : Nat
  sequenceNumber : Option Nat
  processed : Bool
deriving DecidableEq, Repr

/-- An inventory document (collection `inventory`). -/
structure Inventory where
  slot : Int
  quantity : Int
  updatedAt : Nat
deriving DecidableEq, Repr

/-- The durable store: sessions keyed by id, the event log, and the
inventory collection.  `nextEventId` models Firestore's generated doc ids. -/
structure DB where
  sessions : List (String × Session)
  events : List Event
  inventory : List Inventory
  nextEventId : Nat
deriving DecidableEq, Repr

/-- `HttpsError` codes used by the handlers. -/
inductive ErrCode where
  | invalidArgument
  | notFound
  | failedPrecondition
  | resourceExhausted
  | internal
deriving DecidableEq, Repr

/-- Decidable equality of handler results, so concrete runs can be checked
by `decide`. -/
instance {ε α : Type} [DecidableEq ε] [DecidableEq α] : DecidableEq (Except ε α) :=
  fun a b =>
    match a, b with
    | .ok x, .ok y =>
      if h : x = y then .isTrue (by rw [h])
      else .isFalse (by intro hc; cases hc; exact h rfl)
    | .error x, .error y =>
      if h : x = y then .isTrue (by rw [h])
      else .isFalse (by intro hc; cases hc; exact h rfl)
    | .ok _, .error _ => .isFalse (by intro hc; cases hc)
    | .error _, .ok _ => .isFalse (by intro hc; cases hc)

/-- `db.collection('sessions').doc(sid).get()`. -/
def findSession (db : DB) (sid : String) : Option Session :=
  (db.sessions.find? (fun p => p.1 == sid)).map Prod.snd

/-- `db.collection('events').doc(eid).get()`. -/
def findEvent (db : DB) (eid : Nat) : Option Event :=
  db.events.find? (fun e => e.id == eid)

/-- `db.collection('inventory').where('slot','==',slot).limit(1)`:
the first inventory record whose slot matches. -/
def findInventory (db : DB) (slot : Int) : Option Inventory :=
  db.inventory.find? (fun r => r.slot == slot)

/-- Partial update of a session document (Firestore `update` /
`batch.update` on `sessions/sid`). -/
def updateSession (db : DB) (sid : String) (f : Session → Session) : DB :=
  { db with sessions :=
      db.sessions.map (fun p => if p.1 == sid then (p.1, f p.2) else p) }

/-- The per-event effect of `batch.update(events/eid, {processed: true})`. -/
def flipProcessed (eid : Nat) (e : Event) : Event :=
  if e.id == eid then { e with processed := true } else e

/-- `batch.update(events/eid, {processed: true})`. -/
def markProcessed (db : DB) (eid : Nat) : DB :=
  { db with events := db.events.map (flipProcessed eid) }

/-- `db.collection('events').add(...)` with a Firestore-generated id. -/
def addEvent (db : DB) (mk : Nat → Event) : DB :=
  { db with events := db.events ++ [mk db.nextEventId],
            nextEventId := db.nextEventId + 1 }

/-! ## Checkout handler (`processPayment`, index.ts lines 123-253) -/

/-- The inventory precondition loop of `processPayment`
(index.ts lines 177-197), returning the first failure in basket order.
A missing inventory record and insufficient stock both throw
`failed-precondition` in the source. -/
def checkStock (inv : List Inventory) : List BasketItem → Option ErrCode
  | [] => none
  | item :: rest =>
    match inv.find? (fun r => r.slot == item.slot) with
    | none => some .failedPrecondition
    | some r =>
      if r.quantity < (item.quantity : Int) then some .failedPrecondition
      else checkStock inv rest

/-- One `BasketItem` per physical unit, in basket order
(the nested `for` loops of index.ts lines 222-240). -/
def basketUnits (basket : List BasketItem) : List BasketItem :=
  basket.flatMap (fun item => List.replicate item.quantity item)

/-- Total number of physical units in a basket. -/
def totalQuantity (basket : List BasketItem) : Nat :=
  (basket.map (fun item => item.quantity)).sum

/-- The `ProductDispatch` event for the `seq`-th unit of the batch
(index.ts lines 224-238). -/
def mkDispatchEvent (sid mid : String) (now : Nat) (item : BasketItem)
    (eid seq : Nat) : Event :=
  { id := eid
    type := "ProductDispatch"
    sessionId := sid
    vendingMachineId := mid
    payload := .productDispatch item.productId item.productName item.slot item.price
    timestamp := now
    sequenceNumber := some seq
    processed := false }

/-- All dispatch events of one checkout batch: one per unit, with
`sequenceNumber` incrementing 0,1,... across the batch and fresh doc ids
starting at `startId`. -/
def dispatchEvents (sid mid : String) (now startId : Nat)
    (basket : List BasketItem) : List Event :=
  (basketUnits basket).enum.map
    (fun p => mkDispatchEvent sid mid now p.2 (startId + p.1) p.1)

/-- The `PaymentReceived` event of the checkout batch (index.ts 209-217). -/
def mkPaymentEvent (sid mid tid : String) (amount : Int) (now eid : Nat) : Event :=
  { id := eid
    type := "PaymentReceived"
    sessionId := sid
    vendingMachineId := mid
    payload := .paymentReceived tid amount
    timestamp := now
    sequenceNumber := none
    processed := false }

/-- `processPayment` (index.ts lines 123-253).  Validations are checked in
source order and throw before any write is staged; on success all writes go
into one batch whose commit either applies everything (`commitOk = true`)
or fails atomically, in which case the handler rethrows `internal` and the
store is unchanged. -/
def processPayment (db : DB) (sessionId transactionId : String) (amount : Int)
    (now : Nat) (commitOk : Bool) : Except ErrCode Unit × DB :=
  match findSession db sessionId with
  | none => (.error .notFound, db)
  | some session =>
    if session.status == "completed" then (.error .failedPrecondition, db)
    else if session.status != "active" then (.error .failedPrecondition, db)
    else if session.basket.isEmpty then (.error .invalidArgument, db)
    else if amount != session.totalAmount then (.error .invalidArgument, db)
    else
      match checkStock db.inventory session.basket with
      | some e => (.error e, db)
      | none =>
        if commitOk then
          let payEvent := mkPaymentEvent sessionId session.vendingMachineId
            transactionId amount now db.nextEventId
          let dispatch := dispatchEvents sessionId session.vendingMachineId
            now (db.nextEventId + 1) session.basket
          let db' := updateSession db sessionId
            (fun s => { s with status := "completed", completedAt := some now })
          (.ok (), { db' with
            events := db'.events ++ payEvent :: dispatch,
            nextEventId := db.nextEventId + 1 + dispatch.length })
        else (.error .internal, db)

/-! ## Confirmation handler (`confirmDispense`, index.ts lines 259-417) -/

/-- The result object returned by `confirmDispense`. -/
structure ConfirmResult where
  ok : Bool
  alreadyProcessed : Bool
deriving DecidableEq, Repr

/-- Firestore `FieldValue.arrayUnion` on the `dispensedItems` array
(index.ts lines 308-310): appends the element only if it is not already
present (set-union semantics). -/
def arrayUnion (l : List DispensedItem) (x : DispensedItem) : List DispensedItem :=
  if x ∈ l then l else l ++ [x]

/-- `inventoryDoc.ref.update({quantity: increment(-1), updatedAt: now})`
applied to the first record matching `slot` (the `limit(1)` query result;
index.ts lines 391-394). -/
def decrementSlot (now : Nat) (slot : Int) : List Inventory → List Inventory
  | [] => []
  | r :: rest =>
    if r.slot == slot then { r with quantity := r.quantity - 1, updatedAt := now } :: rest
    else r :: decrementSlot now slot rest

/-- The session update staged by `confirmDispense`: `arrayUnion` the new
dispensed item onto `dispensedItems` (index.ts lines 308-310). -/
def appendDispensed (item : DispensedItem) (s : Session) : Session :=
  { s with dispensedItems := arrayUnion s.dispensedItems item }

/-- The dispensed-item record staged by `confirmDispense`
(index.ts lines 297-302). -/
def mkDispensedItem (productId : String) (slot : Int) (success : Bool)
    (now : Nat) : DispensedItem :=
  { productId := productId
    slot := slot
    status := if success then "dispensed" else "failed"
    timestamp := now }

/-- The `DispenseSuccess` / `DispenseFailed` audit event
(index.ts lines 322-329). -/
def mkOutcomeEvent (sid mid pid : String) (slot : Int) (success : Bool)
    (now eid : Nat) : Event :=
  { id := eid
    type := if success then "DispenseSuccess" else "DispenseFailed"
    sessionId := sid
    vendingMachineId := mid
    payload := .dispenseOutcome pid slot
    timestamp := now
    sequenceNumber := none
    processed := false }

/-- The `RefundRequested` compensation event (index.ts lines 345-358). -/
def mkRefundEvent (sid mid pid pname : String) (slot : Int) (refundAmount : Int)
    (now eid : Nat) : Event :=
  { id := eid
    type := "RefundRequested"
    sessionId := sid
    vendingMachineId := mid
    payload := .refundRequested pid pname slot refundAmount "dispense_failed"
    timestamp := now
    sequenceNumber := none
    processed := false }

/-- The `StockLow` event emitted after a decrement lands in `(0, 5]`
(index.ts lines 398-407). -/
def mkStockLowEvent (sid mid pid : String) (quantity : Int) (now eid : Nat) : Event :=
  { id := eid
    type := "StockLow"
    sessionId := sid
    vendingMachineId := mid
    payload := .stockLow pid quantity
    timestamp := now
    sequenceNumber := none
    processed := false }

/-- The part of `confirmDispense` after the batch commit on the failure
branch (index.ts lines 332-373): look up the basket line and emit the
refund event.  The `not-found` thrown when the product is missing from the
basket is swallowed by the handler's own `catch`, which rethrows every
error as `internal` (index.ts lines 413-416) — and the batch has already
committed, so the staged changes persist in that case. -/
def confirmRefundStep (db : DB) (session : Session) (sid pid : String)
    (slot : Int) (now : Nat) : Except ErrCode ConfirmResult × DB :=
  match session.basket.find? (fun item => item.productId == pid) with
  | none => (.error .internal, db)
  | some bItem =>
    (.ok ⟨true, false⟩,
      addEvent db (fun eid =>
        mkRefundEvent sid session.vendingMachineId pid bItem.productName slot
          bItem.price now eid))

/-- The inventory update of `confirmDispense` on the success branch
(index.ts lines 376-410): decrement the first matching record by one,
skipping the decrement as a logged no-op when the count is already ≤ 0,
and emit `StockLow` when the new count lands in `(0, 5]`. -/
def confirmInventoryStep (db : DB) (session : Session) (sid : String)
    (slot : Int) (now : Nat) : Except ErrCode ConfirmResult × DB :=
  match findInventory db slot with
  | none => (.ok ⟨true, false⟩, db)
  | some r =>
    if r.quantity ≤ 0 then
      -- already at 0: log a warning, do not decrement, still succeed
      (.ok ⟨true, false⟩, db)
    else
      let db' := { db with inventory := decrementSlot now slot db.inventory }
      let newQ := r.quantity - 1
      if newQ ≤ 5 ∧ 0 < newQ then
        (.ok ⟨true, false⟩,
          addEvent db' (fun eid =>
            mkStockLowEvent sid session.vendingMachineId "" newQ now eid))
      else (.ok ⟨true, false⟩, db')

/-- `confirmDispense` (index.ts lines 259-417).  The slot range check runs
before the `try` block, so its `invalid-argument` reaches the caller; every
error raised inside the `try` (missing session, missing event doc breaking
the batch, missing basket line) is rethrown by the final `catch` as
`internal`.  The idempotency check returns `alreadyProcessed` without
touching any state.  The dispensed-item append and the `processed := true`
flip commit in one batch; the audit/refund/inventory effects follow the
commit. -/
def confirmDispense (db : DB) (sessionId productId : String) (slot : Int)
    (success : Bool) (eventId : Option Nat) (now : Nat) :
    Except ErrCode ConfirmResult × DB :=
  if slot < 0 ∨ 99 < slot then (.error .invalidArgument, db)
  else
    let alreadyDone :=
      match eventId with
      | some eid =>
        match findEvent db eid with
        | some ev => ev.processed
        | none => false
      | none => false
    if alreadyDone then (.ok ⟨true, true⟩, db)
    else
      match findSession db sessionId with
      | none => (.error .internal, db)
      | some session =>
        -- batch.update on a missing event doc makes the whole commit fail
        if eventId.any (fun eid => (findEvent db eid).isNone) then
          (.error .internal, db)
        else
          let item := mkDispensedItem productId slot success now
          let db1 := updateSession db sessionId (appendDispensed item)
          let db2 := match eventId with
            | some eid => markProcessed db1 eid
            | none => db1
          let db3 := addEvent db2 (fun eid =>
            mkOutcomeEvent sessionId session.vendingMachineId productId slot
              success now eid)
          if success then confirmInventoryStep db3 session sessionId slot now
          else confirmRefundStep db3 session sessionId productId slot now

/-! ## Session creation, expiry sweep, extension
(index.ts lines 50-117, 423-460, 529-604) -/

/-- The fresh session document written by `createSession`
(index.ts lines 71-81). -/
def newSessionData (machineId : String) (now expiresAt : Nat) : Session :=
  { vendingMachineId := machineId
    status := "active"
    basket := []
    totalAmount := 0
    dispensedItems := []
    createdAt := now
    expiresAt := expiresAt
    completedAt := none
    extendedCount := 0 }

/-- `createSession` (index.ts lines 50-117): add a fresh active session
document under a Firestore-generated id `sid` and append a
`SessionCreated` event.  `sid` freshness is Firestore's `add` guarantee,
modelled by leaving the store unchanged when the id already exists. -/
def createSession (db : DB) (machineId sid : String) (now expiresAt : Nat) : DB :=
  if (findSession db sid).isSome then db
  else
    let db' := { db with sessions := (sid, newSessionData machineId now expiresAt) :: db.sessions }
    addEvent db' (fun eid =>
      { id := eid
        type := "SessionCreated"
        sessionId := sid
        vendingMachineId := machineId
        payload := .sessionCreated sid
        timestamp := now
        sequenceNumber := none
        processed := false })

/-- The `SessionExpired` event of the sweep batch (index.ts 441-449). -/
def mkExpiredEvent (sid mid : String) (now eid : Nat) : Event :=
  { id := eid
    type := "SessionExpired"
    sessionId := sid
    vendingMachineId := mid
    payload := .sessionExpired sid
    timestamp := now
    sequenceNumber := none
    processed := false }

/-- The per-session effect of the expiry sweep (index.ts line 438): flip
an active session past its deadline to `expired`, leave anything else
alone. -/
def sweepSession (now : Nat) (s : Session) : Session :=
  if s.status == "active" && s.expiresAt ≤ now then { s with status := "expired" }
  else s

/-- The sweep applied to one keyed session entry. -/
def sweepEntry (now : Nat) (p : String × Session) : String × Session :=
  (p.1, sweepSession now p.2)

/-- `expireSessions` (index.ts lines 423-460): one batch flips every
active session past its `expiresAt` to `expired` and appends a
`SessionExpired` event for each. -/
def expireSessions (db : DB) (now : Nat) : DB :=
  let stale := db.sessions.filter
    (fun p => p.2.status == "active" && p.2.expiresAt ≤ now)
  let swept := db.sessions.map (sweepEntry now)
  let db' := { db with sessions := swept }
  { db' with
    events := db'.events ++
      (stale.enum.map (fun q => mkExpiredEvent q.2.1 q.2.2.vendingMachineId now
        (db.nextEventId + q.1))),
    nextEventId := db.nextEventId + stale.length }

/-- The session update of a granted extension (index.ts lines 575-578). -/
def extendFields (now timeoutMs : Nat) (s : Session) : Session :=
  { s with expiresAt := now + timeoutMs, extendedCount := s.extendedCount + 1 }

/-- `extendSession` (index.ts lines 529-604): reject when already extended
or not active, otherwise push `expiresAt` forward and bump
`extendedCount`. -/
def extendSession (db : DB) (sid : String) (now timeoutMs : Nat) :
    Except ErrCode Nat × DB :=
  match findSession db sid with
  | none => (.error .notFound, db)
  | some s =>
    if 1 ≤ s.extendedCount then (.error .failedPrecondition, db)
    else if s.status != "active" then (.error .failedPrecondition, db)
    else (.ok (now + timeoutMs), updateSession db sid (extendFields now timeoutMs))

/-! ## Client basket operations
(`SessionContext.tsx` lines 73-92, `ShoppingPage.tsx` lines 88-151) -/

/-- A product document as read by the client shopping page. -/
structure Product where
  id : String
  name : String
  price : Int
  slot : Int
deriving DecidableEq, Repr

/-- `items.reduce((sum, item) => sum + item.price * item.quantity, 0)` —
the total recomputed by every client basket write. -/
def clientTotal (items : List BasketItem) : Int :=
  items.foldl (fun sum item => sum + item.price * (item.quantity : Int)) 0

/-- `updateBasket` (`SessionContext.tsx` lines 73-92): overwrite the basket
with `items` and write `totalAmount` recomputed from `items`.  The
`updateDoc` is a no-op/failure when the session document is missing. -/
def clientUpdateBasket (db : DB) (sid : String) (items : List BasketItem) : DB :=
  match findSession db sid with
  | none => db
  | some _ => updateSession db sid (fun s =>
      { s with basket := items, totalAmount := clientTotal items })

/-- The new basket computed by `addToBasket` (`ShoppingPage.tsx`
lines 92-112): bump the quantity of an existing line or append a new
line built from the product. -/
def addToBasketList (basket : List BasketItem) (p : Product) (qty : Nat) :
    List BasketItem :=
  if basket.any (fun item => item.productId == p.id) then
    basket.map (fun item =>
      if item.productId == p.id then { item with quantity := item.quantity + qty }
      else item)
  else
    basket ++ [{ productId := p.id, productName := p.name, quantity := qty,
                 price := p.price, slot := p.slot }]

/-- `addToBasket` (`ShoppingPage.tsx` lines 88-127): write the new basket
together with `totalAmount` recomputed from it. -/
def clientAddToBasket (db : DB) (sid : String) (p : Product) (qty : Nat) : DB :=
  match findSession db sid with
  | none => db
  | some s =>
    let newBasket := addToBasketList s.basket p qty
    updateSession db sid (fun s' =>
      { s' with basket := newBasket, totalAmount := clientTotal newBasket })

/-- The new basket computed by `updateQuantity` (`ShoppingPage.tsx`
lines 133-139): `Math.max(0, quantity + delta)` on the matching line, then
drop lines whose quantity reached 0. -/
def updateQuantityList (basket : List BasketItem) (pid : String) (delta : Int) :
    List BasketItem :=
  (basket.map (fun item =>
    if item.productId == pid then
      { item with quantity := ((item.quantity : Int) + delta).toNat }
    else item)).filter (fun item => 0 < item.quantity)

/-- `updateQuantity` (`ShoppingPage.tsx` lines 129-151): write the new
basket together with `totalAmount` recomputed from it. -/
def clientUpdateQuantity (db : DB) (sid : String) (pid : String) (delta : Int) : DB :=
  match findSession db sid with
  | none => db
  | some s =>
    let newBasket := updateQuantityList s.basket pid delta
    updateSession db sid (fun s' =>
      { s' with basket := newBasket, totalAmount := clientTotal newBasket })

/-! ## The system's operations as one step function -/

/-- Every state-mutating operation of the system.  Arguments carry the
request data plus the server clock values the source reads
(`Timestamp.now()`, config timeout); `commitOk` models whether the
checkout batch commit succeeds. -/
inductive Op where
  | createSession (machineId sid : String) (now expiresAt : Nat)
  | updateBasket (sid : String) (items : List BasketItem)
  | addToBasket (sid : String) (p : Product) (qty : Nat)
  | updateQuantity (sid : String) (pid : String) (delta : Int)
  | checkout (sid tid : String) (amount : Int) (now : Nat) (commitOk : Bool)
  | confirm (sid pid : String) (slot : Int) (success : Bool)
      (eventId : Option Nat) (now : Nat)
  | expireSweep (now : Nat)
  | extend (sid : String) (now timeoutMs : Nat)

/-- The store after one operation (results discarded). -/
def step (db : DB) : Op → DB
  | .createSession mid sid now expiresAt => createSession db mid sid now expiresAt
  | .updateBasket sid items => clientUpdateBasket db sid items
  | .addToBasket sid p qty => clientAddToBasket db sid p qty
  | .updateQuantity sid pid delta => clientUpdateQuantity db sid pid delta
  | .checkout sid tid amount now commitOk =>
      (processPayment db sid tid amount now commitOk).2
  | .confirm sid pid slot success eventId now =>
      (confirmDispense db sid pid slot success eventId now).2
  | .expireSweep now => expireSessions db now
  | .extend sid now timeoutMs => (extendSession db sid now timeoutMs).2

/-- The store after a sequence of operations. -/
def steps (db : DB) : List Op → DB
  | [] => db
  | op :: rest => steps (step db op) rest

/-! ## Session predicates -/

/-- Number of dispensed-items entries whose status is not `pending`. -/
def countNonPending (items : List DispensedItem) : Nat :=
  (items.filter (fun d => d.status != "pending")).length

/-- The "resolved" predicate of the spec: resolved exactly when the number
of non-pending dispense outcomes equals the number of physical units
bought. -/
def resolvedEq (s : Session) : Prop :=
  countNonPending s.dispensedItems = totalQuantity s.basket

/-- The completion check the kiosk actually runs (`_isComplete`,
`dispensing_screen.dart` lines 223-227): `processedItems >= totalItems`. -/
def isComplete (s : Session) : Bool :=
  totalQuantity s.basket ≤ countNonPending s.dispensedItems

/-- The ≥ form of the resolved predicate, matching `_isComplete`. -/
def resolvedGe (s : Session) : Prop :=
  totalQuantity s.basket ≤ countNonPending s.dispensedItems

/-- `totalAmount` agrees with the basket (spec §3 invariant). -/
def TotalOk (s : Session) : Prop :=
  s.totalAmount = clientTotal s.basket

/-- While a session is active its `dispensedItems` is empty
(spec §3 invariant). -/
def ActiveEmpty (s : Session) : Prop :=
  s.status = "active" → s.dispensedItems = []

/-! ## Kiosk dispense controller retry loop
(`dispensing_screen.dart` lines 19-227) -/

/-- `maxRetries` (`dispensing_screen.dart` line 26): retries granted to an
actuator-reported failure, tracked per `(eventId, productId)` key. -/
def maxRetries : Nat := 2

/-- `maxErrorRetries` (`dispensing_screen.dart` line 27): retries granted
to a local exception reaching the outer catch of `_processNextEvent`. -/
def maxErrorRetries : Nat := 3

/-- The backoff delay in seconds before the `n`-th error retry:
`Duration(seconds: 2 * (errorRetries + 1))` (`dispensing_screen.dart`
line 193). -/
def errorBackoffDelay (n : Nat) : Nat := 2 * (n + 1)

/-- What one invocation of `_processNextEvent` observes for the head
event: the actuator call succeeds, the actuator reports failure (a `ship`
exception is caught inside and also counted as a failure), or an exception
escapes to the outer catch (payload cast, confirm call, ...). -/
inductive InvocationOutcome where
  | shipOk
  | shipFail
  | localExn
deriving DecidableEq, Repr

/-- How the head event leaves the queue: confirmed to the backend with a
success flag, or force-resolved as failed after the error-retry bound
(the confirm is still attempted there, with its own errors ignored;
`dispensing_screen.dart` lines 196-217). -/
inductive Resolution where
  | confirmed (success : Bool)
  | forcedFailed
deriving DecidableEq, Repr

/-- The outcome of draining one head event: its resolution, the number of
actuator attempts made by non-exception invocations, and the total number
of `_processNextEvent` invocations. -/
structure DrainResult where
  resolution : Resolution
  shipAttempts : Nat
  invocations : Nat
deriving DecidableEq, Repr

/-- The retry loop of `_processNextEvent` for one head event
(`dispensing_screen.dart` lines 105-221), with the environment's behaviour
on the `k`-th invocation given by `oracle k`.  An actuator failure with
`retries < maxRetries` re-enters the loop after a fixed delay; otherwise
the event is confirmed with the attempt's success flag.  A local exception
with `errRetries < maxErrorRetries` re-enters after the backoff delay;
otherwise the event is removed and confirmed failed (errors ignored).
A `localExn` invocation may also have attempted the actuator before the
exception; `shipAttempts` counts only the attempts whose outcome the
failure-retry counter sees. -/
def processEvent (oracle : Nat → InvocationOutcome) (k retries errRetries : Nat) :
    DrainResult :=
  match oracle k with
  | .shipOk => ⟨.confirmed true, 1, 1⟩
  | .shipFail =>
    if h : retries < maxRetries then
      let r := processEvent oracle (k + 1) (retries + 1) errRetries
      ⟨r.resolution, r.shipAttempts + 1, r.invocations + 1⟩
    else ⟨.confirmed false, 1, 1⟩
  | .localExn =>
    if h : errRetries < maxErrorRetries then
      let r := processEvent oracle (k + 1) retries (errRetries + 1)
      ⟨r.resolution, r.shipAttempts, r.invocations + 1⟩
    else ⟨.forcedFailed, 0, 1⟩
termination_by (maxRetries - retries) + (maxErrorRetries - errRetries)
decreasing_by
  · simp only [maxRetries, maxErrorRetries] at *
    omega
  · simp only [maxRetries, maxErrorRetries] at *
    omega

/-- Events of type `ProductDispatch` belonging to a session. -/
def dispatchEventsFor (db : DB) (sid : String) : List Event :=
  db.events.filter (fun ev => ev.type == "ProductDispatch" && ev.sessionId == sid)

/-! ## Concrete fixtures (the §8 example scenario: basket = one line of
two 350-cent colas in slot 5) -/

/-- Example basket line. -/
def exItem : BasketItem :=
  { productId := "p1", productName := "Cola", quantity := 2, price := 350, slot := 5 }

/-- Example active session holding the example basket. -/
def exSession : Session :=
  { vendingMachineId := "m1", status := "active", basket := [exItem],
    totalAmount := 700, dispensedItems := [], createdAt := 0, expiresAt := 1000,
    completedAt := none, extendedCount := 0 }

/-- Example inventory record for slot 5. -/
def exInv : Inventory := { slot := 5, quantity := 10, updatedAt := 0 }

/-- Example store with the active session and stocked inventory. -/
def exDB : DB :=
  { sessions := [("s1", exSession)], events := [], inventory := [exInv], nextEventId := 0 }

/-- Example store whose inventory collection has no record for slot 5. -/
def exDBNoInv : DB :=
  { sessions := [("s1", exSession)], events := [], inventory := [], nextEventId := 0 }

/-- The example session after checkout. -/
def exCompleted : Session :=
  { exSession with status := "completed", completedAt := some 5 }

/-- The two dispatch events of the example checkout batch. -/
def exDispatch1 : Event := mkDispatchEvent "s1" "m1" 5 exItem 10 0

/-- Second dispatch event of the example batch. -/
def exDispatch2 : Event := mkDispatchEvent "s1" "m1" 5 exItem 11 1

/-- Example store after the example checkout: completed session, two
unprocessed dispatch events, stocked inventory. -/
def exDB2 : DB :=
  { sessions := [("s1", exCompleted)], events := [exDispatch1, exDispatch2],
    inventory := [exInv], nextEventId := 12 }

/-- A one-unit basket line, and a session having already resolved it. -/
def exItemOne : BasketItem := { exItem with quantity := 1 }

/-- The dispensed-item record of the resolved example. -/
def exDispensedOk : DispensedItem :=
  { productId := "p1", slot := 5, status := "dispensed", timestamp := 6 }

/-- A completed session whose single unit has been dispensed (resolved). -/
def exResolved : Session :=
  { exSession with
      status := "completed"
      completedAt := some 5
      basket := [exItemOne]
      dispensedItems := [exDispensedOk] }

/-- Store holding the resolved example session. -/
def exDB3 : DB :=
  { sessions := [("s1", exResolved)], events := [], inventory := [exInv], nextEventId := 20 }

/-- Store whose slot-5 inventory record is already at quantity 0. -/
def exDBZeroStock : DB :=
  { sessions := [("s1", exCompleted)], events := [exDispatch1, exDispatch2],
    inventory := [{ slot := 5, quantity := 0, updatedAt := 0 }], nextEventId := 12 }

/-- The store right after the `confirmDispense` batch commit (dispensed
item appended, event flagged processed) and the audit-event append — the
common prefix of the success and failure tails of the handler. -/
def postCommit (db : DB) (sid pid : String) (slot : Int) (success : Bool)
    (eid : Nat) (now : Nat) (session : Session) : DB :=
  addEvent
    (markProcessed
      (updateSession db sid (appendDispensed (mkDispensedItem pid slot success now)))
      eid)
    (fun eid' => mkOutcomeEvent sid session.vendingMachineId pid slot success now eid')

/-- Recognizer for the dispense audit events. -/
def isOutcomeType (e : Event) : Bool :=
  e.type == "DispenseSuccess" || e.type == "DispenseFailed"

/-- Recognizer for refund events. -/
def isRefundType (e : Event) : Bool :=
  e.type == "RefundRequested"

/-- Number of `DispenseSuccess`/`DispenseFailed` events in the log. -/
def countOutcome (db : DB) : Nat :=
  (db.events.filter isOutcomeType).length

/-- Number of `RefundRequested` events in the log. -/
def countRefund (db : DB) : Nat :=
  (db.events.filter isRefundType).length

/-- The arguments of one `ConfirmDispense` call. -/
structure ConfirmCall where
  sessionId : String
  productId : String
  slot : Int
  success : Bool
  eventId : Option Nat
  now : Nat
deriving DecidableEq, Repr

/-- The store after a sequence of `ConfirmDispense` calls, in order. -/
def runConfirms (db : DB) : List ConfirmCall → DB
  | [] => db
  | c :: rest =>
    runConfirms (confirmDispense db c.sessionId c.productId c.slot c.success
      c.eventId c.now).2 rest

/-- The side condition under which an operation keeps the while-active-no-
dispensed-items invariant: `confirmDispense` must not target a session that
is still `active` (the handler itself never checks the status), every
other operation is unconditional. -/
def SafeOp (db : DB) : Op → Prop
  | .confirm sid _ _ _ _ _ => ∀ s, findSession db sid = some s → s.status ≠ "active"
  | _ => True

/-- `SafeOp` holding along a whole trace. -/
def SafeOps (db : DB) : List Op → Prop
  | [] => True
  | op :: rest => SafeOp db op ∧ SafeOps (step db op) rest

/-! # Theorems -/

/-! ## Store lemmas -/

theorem findSession_updateSession (db : DB) (sid sid' : String) (f : Session → Session) :
    findSession (updateSession db sid f) sid' =
      if sid' = sid then (findSession db sid').map f else findSession db sid' := by
  unfold findSession updateSession
  rw [List.find?_map]
  have hcomp : ((fun p : String × Session => p.1 == sid') ∘
      (fun p : String × Session => if p.1 == sid then (p.1, f p.2) else p)) =
      (fun p : String × Session => p.1 == sid') := by
    funext p
    by_cases h : p.1 = sid <;> simp [h]
  rw [hcomp]
  cases hf : db.sessions.find? (fun p => p.1 == sid') with
  | none => simp
  | some p =>
    have hp : p.1 = sid' := by
      have := List.find?_some hf
      simpa using this
    by_cases h : sid' = sid
    · simp [hp, h]
    · simp [hp, h]

theorem findSession_updateSession_self (db : DB) (sid : String) (f : Session → Session) :
    findSession (updateSession db sid f) sid = (findSession db sid).map f := by
  simp [findSession_updateSession]

theorem findSession_updateSession_other (db : DB) (sid sid' : String)
    (f : Session → Session) (h : sid' ≠ sid) :
    findSession (updateSession db sid f) sid' = findSession db sid' := by
  simp [findSession_updateSession, h]

theorem updateSession_events (db : DB) (sid : String) (f : Session → Session) :
    (updateSession db sid f).events = db.events := rfl

theorem updateSession_inventory (db : DB) (sid : String) (f : Session → Session) :
    (updateSession db sid f).inventory = db.inventory := rfl

/-! ## Dispatch batch lemmas -/

theorem basketUnits_length (b : List BasketItem) :
    (basketUnits b).length = totalQuantity b := by
  simp only [basketUnits, totalQuantity, List.length_flatMap]
  have hlen : (List.length ∘ fun item : BasketItem => List.replicate item.quantity item) =
      fun item : BasketItem => item.quantity := by
    funext item
    simp
  rw [hlen]

theorem mem_of_mem_basketUnits {b : List BasketItem} {u : BasketItem}
    (h : u ∈ basketUnits b) : u ∈ b := by
  unfold basketUnits at h
  rcases List.mem_flatMap.mp h with ⟨item, hitem, hu⟩
  rw [List.eq_of_mem_replicate hu]
  exact hitem

theorem dispatchEvents_length (sid mid : String) (now startId : Nat)
    (b : List BasketItem) :
    (dispatchEvents sid mid now startId b).length = totalQuantity b := by
  simp [dispatchEvents, basketUnits_length]

theorem dispatchEvents_getElem (sid mid : String) (now startId : Nat)
    (b : List BasketItem) (i : Nat)
    (h : i < (dispatchEvents sid mid now startId b).length)
    (hbu : i < (basketUnits b).length) :
    (dispatchEvents sid mid now startId b)[i] =
      mkDispatchEvent sid mid now ((basketUnits b)[i]) (startId + i) i := by
  simp [dispatchEvents]

/-! ## Checkout: error branches leave the store untouched -/

theorem processPayment_error (db : DB) (sid tid : String) (amount : Int)
    (now : Nat) (commitOk : Bool) (e : ErrCode) (db' : DB)
    (h : processPayment db sid tid amount now commitOk = (.error e, db')) :
    db' = db := by
  unfold processPayment at h
  repeat' split at h
  all_goals simp_all

/-- C1: Checkout is atomic — for every `Checkout(sessionId, transactionId,
amount)` call that fails (any precondition violation or a failed commit),
the store is unchanged: the session's status remains `active` when it was
`active`, and the session's set of `ProductDispatch` events is exactly
what it was before — no partial application of the completed-status write,
the `PaymentReceived` event, or any dispatch event. -/
theorem checkout_atomic (db : DB) (sid tid : String) (amount : Int)
    (now : Nat) (commitOk : Bool) (e : ErrCode) (db' : DB)
    (h : processPayment db sid tid amount now commitOk = (.error e, db')) :
    db' = db ∧
    (∀ s, findSession db sid = some s → s.status = "active" →
      ∃ s', findSession db' sid = some s' ∧ s'.status = "active") ∧
    dispatchEventsFor db' sid = dispatchEventsFor db sid := by
  have hdb := processPayment_error db sid tid amount now commitOk e db' h
  subst hdb
  exact ⟨rfl, fun s hs ha => ⟨s, hs, ha⟩, rfl⟩

/-- C1 witness: the amount-mismatch call on the example store fails and
leaves the store unchanged. -/
theorem checkout_atomic_witness :
    exDB = exDB ∧
    (∀ s, findSession exDB "s1" = some s → s.status = "active" →
      ∃ s', findSession exDB "s1" = some s' ∧ s'.status = "active") ∧
    dispatchEventsFor exDB "s1" = dispatchEventsFor exDB "s1" :=
  checkout_atomic exDB "s1" "t1" 699 5 true .invalidArgument exDB (by rfl)

/-! ## Checkout: success branch -/

theorem processPayment_ok (db : DB) (sid tid : String) (amount : Int)
    (now : Nat) (commitOk : Bool) (s : Session) (db' : DB)
    (hs : findSession db sid = some s)
    (h : processPayment db sid tid amount now commitOk = (.ok (), db')) :
    db' = { updateSession db sid
              (fun s0 => { s0 with status := "completed", completedAt := some now }) with
            events := db.events ++
              mkPaymentEvent sid s.vendingMachineId tid amount now db.nextEventId ::
              dispatchEvents sid s.vendingMachineId now (db.nextEventId + 1) s.basket,
            nextEventId := db.nextEventId + 1 +
              (dispatchEvents sid s.vendingMachineId now (db.nextEventId + 1) s.basket).length } := by
  unfold processPayment at h
  rw [hs] at h
  dsimp only at h
  repeat' split at h
  all_goals try simp_all
  all_goals exact h.symm

/-- C2: for every session with a non-empty basket, a successful Checkout
sets `status = completed` and `completedAt`, appends one `PaymentReceived`
event, and appends exactly `Σ basket[i].quantity` `ProductDispatch` events
— one per physical unit, not one per basket line — each with payload
`{productId, productName, slot, price}` copied from its basket line and a
`sequenceNumber` incrementing per unit across the batch `0, 1, ...,
Σquantity − 1`. -/
theorem checkout_success (db : DB) (sid tid : String) (amount : Int)
    (now : Nat) (commitOk : Bool) (s : Session) (db' : DB)
    (hs : findSession db sid = some s)
    (h : processPayment db sid tid amount now commitOk = (.ok (), db')) :
    findSession db' sid = some { s with status := "completed", completedAt := some now } ∧
    db'.events = db.events ++
      mkPaymentEvent sid s.vendingMachineId tid amount now db.nextEventId ::
      dispatchEvents sid s.vendingMachineId now (db.nextEventId + 1) s.basket ∧
    (dispatchEvents sid s.vendingMachineId now (db.nextEventId + 1) s.basket).length =
      totalQuantity s.basket ∧
    (∀ i (hi : i < (dispatchEvents sid s.vendingMachineId now
        (db.nextEventId + 1) s.basket).length),
      ((dispatchEvents sid s.vendingMachineId now (db.nextEventId + 1) s.basket)[i]).sequenceNumber
          = some i ∧
      ∃ u, u ∈ s.basket ∧
        ((dispatchEvents sid s.vendingMachineId now (db.nextEventId + 1) s.basket)[i]).payload
          = .productDispatch u.productId u.productName u.slot u.price) := by
  have hd := processPayment_ok db sid tid amount now commitOk s db' hs h
  subst hd
  refine ⟨?_, rfl, dispatchEvents_length _ _ _ _ _, ?_⟩
  · have hfind := findSession_updateSession_self db sid
      (fun s0 => { s0 with status := "completed", completedAt := some now })
    rw [hs] at hfind
    exact hfind
  · intro i hi
    have hbu : i < (basketUnits s.basket).length := by
      rw [basketUnits_length]
      rw [dispatchEvents_length] at hi
      exact hi
    rw [dispatchEvents_getElem _ _ _ _ _ _ hi hbu]
    refine ⟨rfl, (basketUnits s.basket)[i], ?_, rfl⟩
    exact mem_of_mem_basketUnits (List.getElem_mem hbu)

/-- C2 witness: checkout of the example basket (one line, quantity 2)
appends two dispatch events with sequence numbers 0 and 1. -/
theorem checkout_success_witness :
    findSession (processPayment exDB "s1" "t1" 700 5 true).2 "s1" =
      some { exSession with status := "completed", completedAt := some 5 } ∧
    (processPayment exDB "s1" "t1" 700 5 true).2.events =
      exDB.events ++
        mkPaymentEvent "s1" "m1" "t1" 700 5 0 ::
        dispatchEvents "s1" "m1" 5 1 [exItem] ∧
    (dispatchEvents "s1" "m1" 5 1 [exItem]).length = 2 := by
  have hmain := checkout_success exDB "s1" "t1" 700 5 true exSession
    (processPayment exDB "s1" "t1" 700 5 true).2 (by rfl) (by rfl)
  refine ⟨hmain.1, ?_, ?_⟩
  · have := hmain.2.1
    simpa [exDB, exSession] using this
  · have := hmain.2.2.1
    simpa [exDB, exSession, totalQuantity, exItem] using this

/-! ## Checkout preconditions (order and failure kinds) -/

theorem checkStock_some_kind (inv : List Inventory) :
    ∀ b ec, checkStock inv b = some ec → ec = .failedPrecondition := by
  intro b
  induction b with
  | nil => intro ec h; simp [checkStock] at h
  | cons item rest ih =>
    intro ec h
    unfold checkStock at h
    split at h
    · simpa using h.symm
    · split at h
      · simpa using h.symm
      · exact ih ec h

/-- C4 counterexample: on a store whose inventory collection has no record
for the basket line's slot, Checkout fails with `FailedPrecondition` — not
the `NotFound` the claim states. -/
theorem checkout_inventory_missing_kind :
    (processPayment exDBNoInv "s1" "t1" 700 5 true).1 = .error .failedPrecondition ∧
    (processPayment exDBNoInv "s1" "t1" 700 5 true).1 ≠ .error .notFound := by
  decide

/-- C4 amended: Checkout checks its preconditions in the stated order and
each violation yields its stated failure kind, except that a missing
inventory record for a basket line's slot yields `FailedPrecondition`
(the same kind as insufficient stock), not `NotFound`: session missing →
`NotFound`; `status == completed` → `FailedPrecondition`; status not
`active` → `FailedPrecondition`; empty basket → `InvalidArgument`;
`amount != totalAmount` (exact match) → `InvalidArgument` with the session
left `active`; missing inventory record → `FailedPrecondition`;
`inventory.quantity < basket.quantity` → `FailedPrecondition`. -/
theorem checkout_precondition_order (db : DB) (sid tid : String) (amount : Int)
    (now : Nat) (commitOk : Bool) :
    (findSession db sid = none →
      processPayment db sid tid amount now commitOk = (.error .notFound, db)) ∧
    (∀ s, findSession db sid = some s → s.status = "completed" →
      processPayment db sid tid amount now commitOk = (.error .failedPrecondition, db)) ∧
    (∀ s, findSession db sid = some s → s.status ≠ "completed" → s.status ≠ "active" →
      processPayment db sid tid amount now commitOk = (.error .failedPrecondition, db)) ∧
    (∀ s, findSession db sid = some s → s.status = "active" → s.basket = [] →
      processPayment db sid tid amount now commitOk = (.error .invalidArgument, db)) ∧
    (∀ s, findSession db sid = some s → s.status = "active" → s.basket ≠ [] →
      amount ≠ s.totalAmount →
      processPayment db sid tid amount now commitOk = (.error .invalidArgument, db)) ∧
    (∀ s, findSession db sid = some s → s.status = "active" → s.basket ≠ [] →
      amount = s.totalAmount → ∀ ec, checkStock db.inventory s.basket = some ec →
      processPayment db sid tid amount now commitOk = (.error ec, db)) ∧
    (∀ item rest, findInventory db item.slot = none →
      checkStock db.inventory (item :: rest) = some .failedPrecondition) ∧
    (∀ item rest r, findInventory db item.slot = some r →
      r.quantity < (item.quantity : Int) →
      checkStock db.inventory (item :: rest) = some .failedPrecondition) ∧
    (∀ b ec, checkStock db.inventory b = some ec → ec = .failedPrecondition) := by
  refine ⟨?_, ?_, ?_, ?_, ?_, ?_, ?_, ?_, checkStock_some_kind db.inventory⟩
  · intro hn
    simp [processPayment, hn]
  · intro s hs hc
    simp [processPayment, hs, hc]
  · intro s hs hc ha
    simp [processPayment, hs, hc, ha]
  · intro s hs ha hb
    simp [processPayment, hs, ha, hb, List.isEmpty_iff]
  · intro s hs ha hb hm
    simp [processPayment, hs, ha, hb, hm, List.isEmpty_iff]
  · intro s hs ha hb hm ec hst
    have hk := checkStock_some_kind db.inventory s.basket ec hst
    simp [processPayment, hs, ha, hb, hm, hst, List.isEmpty_iff, hk]
  · intro item rest hn
    unfold findInventory at hn
    simp [checkStock, hn]
  · intro item rest r hr hq
    unfold findInventory at hr
    simp [checkStock, hr, hq]

/-- C4 witness: a call against a missing session id returns `NotFound`,
and the amount-mismatch call on the example store returns
`InvalidArgument`. -/
theorem checkout_precondition_order_witness :
    processPayment exDB "nope" "t1" 700 5 true = (.error .notFound, exDB) ∧
    processPayment exDB "s1" "t1" 699 5 true = (.error .invalidArgument, exDB) := by
  constructor
  · exact (checkout_precondition_order exDB "nope" "t1" 700 5 true).1 (by decide)
  · exact (checkout_precondition_order exDB "s1" "t1" 699 5 true).2.2.2.2.1 exSession
      (by decide) (by decide) (by decide) (by decide)

/-! ## Inventory non-negativity -/

theorem decrementSlot_nonneg (now : Nat) (slot : Int) (l : List Inventory)
    (r : Inventory) (hf : l.find? (fun x => x.slot == slot) = some r)
    (hq : 0 < r.quantity) (h : ∀ x ∈ l, 0 ≤ x.quantity) :
    ∀ x ∈ decrementSlot now slot l, 0 ≤ x.quantity := by
  induction l with
  | nil => simp [decrementSlot]
  | cons hd tl ih =>
    by_cases hhd : hd.slot = slot
    · have hr : hd = r := by
        rw [List.find?_cons_of_pos _ (by simpa using hhd)] at hf
        exact Option.some.inj hf
      intro x hx
      unfold decrementSlot at hx
      rw [if_pos (by simpa using hhd)] at hx
      rcases List.mem_cons.mp hx with h1 | h2
      · subst h1
        show (0 : Int) ≤ hd.quantity - 1
        rw [hr]
        omega
      · exact h x (List.mem_cons_of_mem _ h2)
    · rw [List.find?_cons_of_neg _ (by simpa using hhd)] at hf
      intro x hx
      unfold decrementSlot at hx
      rw [if_neg (by simpa using hhd)] at hx
      rcases List.mem_cons.mp hx with h1 | h2
      · subst h1
        exact h _ (List.mem_cons_self _ _)
      · exact ih hf (fun y hy => h y (List.mem_cons_of_mem _ hy)) x h2

theorem confirmInventoryStep_nonneg (db : DB) (session : Session) (sid : String)
    (slot : Int) (now : Nat) (h : ∀ r ∈ db.inventory, 0 ≤ r.quantity) :
    ∀ r ∈ (confirmInventoryStep db session sid slot now).2.inventory, 0 ≤ r.quantity := by
  unfold confirmInventoryStep
  split
  · exact h
  next r hr =>
    split
    · exact h
    next hq =>
      dsimp only
      split
      · intro x hx
        exact decrementSlot_nonneg now slot db.inventory r hr (by omega) h x hx
      · intro x hx
        exact decrementSlot_nonneg now slot db.inventory r hr (by omega) h x hx

theorem confirmRefundStep_inventory (db : DB) (session : Session)
    (sid pid : String) (slot : Int) (now : Nat) :
    (confirmRefundStep db session sid pid slot now).2.inventory = db.inventory := by
  unfold confirmRefundStep
  split <;> rfl

theorem confirmDispense_nonneg (db : DB) (sid pid : String) (slot : Int)
    (success : Bool) (eventId : Option Nat) (now : Nat)
    (h : ∀ r ∈ db.inventory, 0 ≤ r.quantity) :
    ∀ r ∈ (confirmDispense db sid pid slot success eventId now).2.inventory,
      0 ≤ r.quantity := by
  unfold confirmDispense
  dsimp only
  repeat' split
  all_goals try exact h
  all_goals try exact confirmInventoryStep_nonneg _ _ _ _ _ h
  all_goals intro x hx
  all_goals rw [confirmRefundStep_inventory] at hx
  all_goals exact h x hx

/-- C5: starting from inventory whose every record has quantity ≥ 0, no
sequence of ConfirmDispense calls (in any order, with duplicates) drives
any quantity below 0; and a successful-dispense decrement that would cross
zero is skipped as a no-op — the inventory step leaves the store unchanged
and still reports success rather than erroring. -/
theorem inventory_never_negative (db : DB) (calls : List ConfirmCall)
    (h : ∀ r ∈ db.inventory, 0 ≤ r.quantity) :
    (∀ r ∈ (runConfirms db calls).inventory, 0 ≤ r.quantity) ∧
    (∀ session sid slot now r, findInventory db slot = some r → r.quantity ≤ 0 →
      confirmInventoryStep db session sid slot now = (.ok ⟨true, false⟩, db)) := by
  constructor
  · induction calls generalizing db with
    | nil => exact h
    | cons c rest ih =>
      exact ih _ (confirmDispense_nonneg db c.sessionId c.productId c.slot
        c.success c.eventId c.now h)
  · intro session sid slot now r hr hq
    unfold confirmInventoryStep
    rw [hr]
    dsimp only
    rw [if_pos hq]

/-- C5 witness: on the store whose slot-5 record is already at 0, the
clamp branch leaves the store unchanged and reports success. -/
theorem inventory_never_negative_witness :
    (0 : Int) ≤ ({ slot := 5, quantity := 0, updatedAt := 0 } : Inventory).quantity ∧
    confirmInventoryStep exDBZeroStock exCompleted "s1" 5 7 =
      (.ok ⟨true, false⟩, exDBZeroStock) := by
  have hmain := inventory_never_negative exDBZeroStock [] (by decide)
  exact ⟨hmain.1 _ (by decide),
    hmain.2 exCompleted "s1" 5 7 { slot := 5, quantity := 0, updatedAt := 0 }
      (by decide) (by decide)⟩

/-! ## Session-shape lemmas for the remaining operations -/

theorem findSession_congr (db db' : DB) (h : db'.sessions = db.sessions) (sid : String) :
    findSession db' sid = findSession db sid := by
  unfold findSession
  rw [h]

theorem find?_map_keyPreserving (l : List (String × Session))
    (g : String × Session → String × Session) (hg : ∀ p, (g p).1 = p.1) (sid : String) :
    (l.map g).find? (fun p => p.1 == sid) =
      (l.find? (fun p => p.1 == sid)).map g := by
  rw [List.find?_map]
  have hcomp : ((fun p : String × Session => p.1 == sid) ∘ g) =
      (fun p : String × Session => p.1 == sid) := by
    funext p
    simp [Function.comp, hg p]
  rw [hcomp]

theorem findSession_consSession (db : DB) (sid' sid : String) (s : Session) :
    findSession { db with sessions := (sid', s) :: db.sessions } sid =
      if sid' = sid then some s else findSession db sid := by
  unfold findSession
  by_cases h : sid' = sid
  · rw [if_pos h]
    dsimp only
    rw [List.find?_cons_of_pos _ (by simpa using h)]
    rfl
  · rw [if_neg h]
    dsimp only
    rw [List.find?_cons_of_neg _ (by simpa using h)]

theorem findSession_createSession (db : DB) (mid sid' sid : String)
    (now expiresAt : Nat) :
    findSession (createSession db mid sid' now expiresAt) sid =
      if (findSession db sid').isSome then findSession db sid
      else if sid' = sid then some (newSessionData mid now expiresAt)
      else findSession db sid := by
  unfold createSession
  split
  · rfl
  · exact findSession_consSession db sid' sid _

theorem processPayment_snd (db : DB) (sid tid : String) (amount : Int)
    (now : Nat) (commitOk : Bool) :
    (processPayment db sid tid amount now commitOk).2 = db ∨
    ∃ s, findSession db sid = some s ∧
      (processPayment db sid tid amount now commitOk).2 =
        { updateSession db sid
            (fun s0 => { s0 with status := "completed", completedAt := some now }) with
          events := db.events ++
            mkPaymentEvent sid s.vendingMachineId tid amount now db.nextEventId ::
            dispatchEvents sid s.vendingMachineId now (db.nextEventId + 1) s.basket,
          nextEventId := db.nextEventId + 1 +
            (dispatchEvents sid s.vendingMachineId now (db.nextEventId + 1) s.basket).length } := by
  rcases hres : processPayment db sid tid amount now commitOk with ⟨r, db'⟩
  rcases r with e | u
  · left
    have := processPayment_error db sid tid amount now commitOk e db' hres
    rw [this]
  · cases u
    cases hs : findSession db sid with
    | none =>
      exfalso
      unfold processPayment at hres
      rw [hs] at hres
      simp at hres
    | some s =>
      right
      refine ⟨s, rfl, ?_⟩
      exact processPayment_ok db sid tid amount now commitOk s db' hs hres

theorem confirmInventoryStep_sessions (db : DB) (session : Session) (sid : String)
    (slot : Int) (now : Nat) :
    (confirmInventoryStep db session sid slot now).2.sessions = db.sessions := by
  unfold confirmInventoryStep
  dsimp only
  repeat' split
  all_goals rfl

theorem confirmRefundStep_sessions (db : DB) (session : Session) (sid pid : String)
    (slot : Int) (now : Nat) :
    (confirmRefundStep db session sid pid slot now).2.sessions = db.sessions := by
  unfold confirmRefundStep
  split <;> rfl

theorem confirmDispense_sessions (db : DB) (sid pid : String) (slot : Int)
    (success : Bool) (eventId : Option Nat) (now : Nat) :
    (confirmDispense db sid pid slot success eventId now).2.sessions = db.sessions ∨
    (confirmDispense db sid pid slot success eventId now).2.sessions =
      (updateSession db sid
        (appendDispensed (mkDispensedItem pid slot success now))).sessions := by
  unfold confirmDispense
  dsimp only
  repeat' split
  all_goals try (left; rfl)
  all_goals try (right; exact (confirmInventoryStep_sessions _ _ _ _ _).trans rfl)
  all_goals right
  all_goals exact (confirmRefundStep_sessions _ _ _ _ _ _).trans rfl

theorem confirmDispense_findSession (db : DB) (sid pid : String) (slot : Int)
    (success : Bool) (eventId : Option Nat) (now : Nat) (sid' : String) :
    findSession (confirmDispense db sid pid slot success eventId now).2 sid' =
      findSession db sid' ∨
    (sid' = sid ∧ ∃ s, findSession db sid = some s ∧
      findSession (confirmDispense db sid pid slot success eventId now).2 sid' =
        some (appendDispensed (mkDispensedItem pid slot success now) s)) := by
  rcases confirmDispense_sessions db sid pid slot success eventId now with hse | hse
  · left
    exact findSession_congr _ _ hse sid'
  · have hfind := findSession_congr _ _ hse sid'
    rw [findSession_updateSession] at hfind
    by_cases hsid : sid' = sid
    · rw [if_pos hsid] at hfind
      subst hsid
      cases hs : findSession db sid' with
      | none =>
        left
        rw [hfind, hs]
        rfl
      | some s =>
        right
        refine ⟨rfl, s, rfl, ?_⟩
        rw [hfind, hs]
        rfl
    · left
      rwa [if_neg hsid] at hfind

theorem extendSession_snd (db : DB) (sid : String) (now timeoutMs : Nat) :
    (extendSession db sid now timeoutMs).2 = db ∨
    (extendSession db sid now timeoutMs).2 =
      updateSession db sid (extendFields now timeoutMs) := by
  unfold extendSession
  repeat' split
  all_goals first
  | (left; rfl)
  | (right; rfl)

theorem findSession_expire (db : DB) (now : Nat) (sid : String) :
    findSession (expireSessions db now) sid =
      (findSession db sid).map (sweepSession now) := by
  unfold expireSessions findSession
  dsimp only
  rw [find?_map_keyPreserving db.sessions (sweepEntry now) (fun p => rfl) sid]
  cases db.sessions.find? (fun p => p.1 == sid) <;> rfl

/-! ## totalAmount invariant (C6) -/

theorem findSession_singleton (k : String) (v : Session) (ev : List Event)
    (inv : List Inventory) (nid : Nat) (sid : String) (s : Session)
    (h : findSession ⟨[(k, v)], ev, inv, nid⟩ sid = some s) : s = v := by
  unfold findSession at h
  by_cases hk : k = sid
  · rw [List.find?_cons_of_pos _ (by simpa using hk)] at h
    exact (Option.some.inj h).symm
  · rw [List.find?_cons_of_neg _ (by simpa using hk)] at h
    simp at h

theorem step_TotalOk (db : DB) (op : Op)
    (h : ∀ sid s, findSession db sid = some s → TotalOk s) :
    ∀ sid s, findSession (step db op) sid = some s → TotalOk s := by
  cases op with
  | createSession mid sid' now expiresAt =>
    intro sid s hs
    simp only [step] at hs
    rw [findSession_createSession] at hs
    split at hs
    · exact h sid s hs
    · split at hs
      · cases hs
        show (0 : Int) = clientTotal []
        rfl
      · exact h sid s hs
  | updateBasket sid' items =>
    intro sid s hs
    simp only [step, clientUpdateBasket] at hs
    cases hb : findSession db sid' with
    | none => rw [hb] at hs; exact h sid s hs
    | some s0 =>
      rw [hb] at hs
      dsimp only at hs
      rw [findSession_updateSession] at hs
      by_cases hsid : sid = sid'
      · rw [if_pos hsid] at hs
        cases hf : findSession db sid with
        | none => rw [hf] at hs; cases hs
        | some s1 =>
          rw [hf] at hs
          cases hs
          exact rfl
      · rw [if_neg hsid] at hs
        exact h sid s hs
  | addToBasket sid' p qty =>
    intro sid s hs
    simp only [step, clientAddToBasket] at hs
    cases hb : findSession db sid' with
    | none => rw [hb] at hs; exact h sid s hs
    | some s0 =>
      rw [hb] at hs
      dsimp only at hs
      rw [findSession_updateSession] at hs
      by_cases hsid : sid = sid'
      · rw [if_pos hsid] at hs
        cases hf : findSession db sid with
        | none => rw [hf] at hs; cases hs
        | some s1 =>
          rw [hf] at hs
          cases hs
          exact rfl
      · rw [if_neg hsid] at hs
        exact h sid s hs
  | updateQuantity sid' pid delta =>
    intro sid s hs
    simp only [step, clientUpdateQuantity] at hs
    cases hb : findSession db sid' with
    | none => rw [hb] at hs; exact h sid s hs
    | some s0 =>
      rw [hb] at hs
      dsimp only at hs
      rw [findSession_updateSession] at hs
      by_cases hsid : sid = sid'
      · rw [if_pos hsid] at hs
        cases hf : findSession db sid with
        | none => rw [hf] at hs; cases hs
        | some s1 =>
          rw [hf] at hs
          cases hs
          exact rfl
      · rw [if_neg hsid] at hs
        exact h sid s hs
  | checkout sid' tid amount now commitOk =>
    intro sid s hs
    simp only [step] at hs
    rcases processPayment_snd db sid' tid amount now commitOk with hp | ⟨s0, hs0, hp⟩
    · rw [hp] at hs
      exact h sid s hs
    · rw [hp] at hs
      have hs2 : findSession (updateSession db sid'
          (fun s0 => { s0 with status := "completed", completedAt := some now })) sid
          = some s := hs
      rw [findSession_updateSession] at hs2
      by_cases hsid : sid = sid'
      · rw [if_pos hsid] at hs2
        cases hf : findSession db sid with
        | none => rw [hf] at hs2; cases hs2
        | some s1 =>
          rw [hf] at hs2
          cases hs2
          exact h sid s1 hf
      · rw [if_neg hsid] at hs2
        exact h sid s hs2
  | confirm sid' pid slot success eventId now =>
    intro sid s hs
    simp only [step] at hs
    rcases confirmDispense_findSession db sid' pid slot success eventId now sid with
      hc | ⟨hsid, s0, hs0, hc⟩
    · rw [hc] at hs
      exact h sid s hs
    · rw [hc] at hs
      cases hs
      exact h sid' s0 (hsid ▸ hs0)
  | expireSweep now =>
    intro sid s hs
    simp only [step] at hs
    rw [findSession_expire] at hs
    cases hf : findSession db sid with
    | none => rw [hf] at hs; cases hs
    | some s0 =>
      rw [hf] at hs
      cases hs
      unfold sweepSession
      split
      · exact h sid s0 hf
      · exact h sid s0 hf
  | extend sid' now timeoutMs =>
    intro sid s hs
    simp only [step] at hs
    rcases extendSession_snd db sid' now timeoutMs with he | he
    · rw [he] at hs
      exact h sid s hs
    · rw [he] at hs
      rw [findSession_updateSession] at hs
      by_cases hsid : sid = sid'
      · rw [if_pos hsid] at hs
        cases hf : findSession db sid with
        | none => rw [hf] at hs; cases hs
        | some s1 =>
          rw [hf] at hs
          cases hs
          exact h sid s1 hf
      · rw [if_neg hsid] at hs
        exact h sid s hs

theorem steps_TotalOk (db : DB) (ops : List Op)
    (h : ∀ sid s, findSession db sid = some s → TotalOk s) :
    ∀ sid s, findSession (steps db ops) sid = some s → TotalOk s := by
  induction ops generalizing db with
  | nil => exact h
  | cons op rest ih => exact ih _ (step_TotalOk db op h)

/-- C6: every basket-updating operation (UpdateBasket, the client's
add-to-basket and change-quantity paths) writes `totalAmount` equal to
`Σ item.price × item.quantity` of the exact basket it writes; consequently,
starting from any store in which every session satisfies the invariant,
after any sequence of operations every session still has `totalAmount`
equal to the sum over its basket. -/
theorem totalAmount_invariant (db : DB) (ops : List Op)
    (h : ∀ sid s, findSession db sid = some s → TotalOk s) :
    (∀ sid items s, findSession (clientUpdateBasket db sid items) sid = some s →
      TotalOk s) ∧
    (∀ sid p qty s, findSession (clientAddToBasket db sid p qty) sid = some s →
      TotalOk s) ∧
    (∀ sid pid delta s, findSession (clientUpdateQuantity db sid pid delta) sid = some s →
      TotalOk s) ∧
    (∀ sid s, findSession (steps db ops) sid = some s → TotalOk s) := by
  refine ⟨?_, ?_, ?_, steps_TotalOk db ops h⟩
  · intro sid items s hs
    exact step_TotalOk db (.updateBasket sid items) h sid s hs
  · intro sid p qty s hs
    exact step_TotalOk db (.addToBasket sid p qty) h sid s hs
  · intro sid pid delta s hs
    exact step_TotalOk db (.updateQuantity sid pid delta) h sid s hs

/-- C6 witness: the invariant holds on the example store and is preserved
by an add-to-basket followed by a change-quantity and a checkout. -/
theorem totalAmount_invariant_witness : TotalOk exSession := by
  have h0 : ∀ sid s, findSession exDB sid = some s → TotalOk s := by
    intro sid s hs
    have := findSession_singleton "s1" exSession [] [exInv] 0 sid s hs
    subst this
    exact (by decide : exSession.totalAmount = clientTotal exSession.basket)
  exact (totalAmount_invariant exDB [] h0).2.2.2 "s1" exSession (by decide)

/-! ## While-active-no-dispensed-items invariant (C7) -/

theorem step_ActiveEmpty (db : DB) (op : Op)
    (h : ∀ sid s, findSession db sid = some s → ActiveEmpty s)
    (hop : SafeOp db op) :
    ∀ sid s, findSession (step db op) sid = some s → ActiveEmpty s := by
  cases op with
  | createSession mid sid' now expiresAt =>
    intro sid s hs
    simp only [step] at hs
    rw [findSession_createSession] at hs
    split at hs
    · exact h sid s hs
    · split at hs
      · cases hs
        intro _
        rfl
      · exact h sid s hs
  | updateBasket sid' items =>
    intro sid s hs
    simp only [step, clientUpdateBasket] at hs
    cases hb : findSession db sid' with
    | none => rw [hb] at hs; exact h sid s hs
    | some s0 =>
      rw [hb] at hs
      dsimp only at hs
      rw [findSession_updateSession] at hs
      by_cases hsid : sid = sid'
      · rw [if_pos hsid] at hs
        cases hf : findSession db sid with
        | none => rw [hf] at hs; cases hs
        | some s1 =>
          rw [hf] at hs
          cases hs
          exact h sid s1 hf
      · rw [if_neg hsid] at hs
        exact h sid s hs
  | addToBasket sid' p qty =>
    intro sid s hs
    simp only [step, clientAddToBasket] at hs
    cases hb : findSession db sid' with
    | none => rw [hb] at hs; exact h sid s hs
    | some s0 =>
      rw [hb] at hs
      dsimp only at hs
      rw [findSession_updateSession] at hs
      by_cases hsid : sid = sid'
      · rw [if_pos hsid] at hs
        cases hf : findSession db sid with
        | none => rw [hf] at hs; cases hs
        | some s1 =>
          rw [hf] at hs
          cases hs
          exact h sid s1 hf
      · rw [if_neg hsid] at hs
        exact h sid s hs
  | updateQuantity sid' pid delta =>
    intro sid s hs
    simp only [step, clientUpdateQuantity] at hs
    cases hb : findSession db sid' with
    | none => rw [hb] at hs; exact h sid s hs
    | some s0 =>
      rw [hb] at hs
      dsimp only at hs
      rw [findSession_updateSession] at hs
      by_cases hsid : sid = sid'
      · rw [if_pos hsid] at hs
        cases hf : findSession db sid with
        | none => rw [hf] at hs; cases hs
        | some s1 =>
          rw [hf] at hs
          cases hs
          exact h sid s1 hf
      · rw [if_neg hsid] at hs
        exact h sid s hs
  | checkout sid' tid amount now commitOk =>
    intro sid s hs
    simp only [step] at hs
    rcases processPayment_snd db sid' tid amount now commitOk with hp | ⟨s0, hs0, hp⟩
    · rw [hp] at hs
      exact h sid s hs
    · rw [hp] at hs
      have hs2 : findSession (updateSession db sid'
          (fun s0 => { s0 with status := "completed", completedAt := some now })) sid
          = some s := hs
      rw [findSession_updateSession] at hs2
      by_cases hsid : sid = sid'
      · rw [if_pos hsid] at hs2
        cases hf : findSession db sid with
        | none => rw [hf] at hs2; cases hs2
        | some s1 =>
          rw [hf] at hs2
          cases hs2
          intro hst
          have hst' : ("completed" : String) = "active" := hst
          exact absurd hst' (by decide)
      · rw [if_neg hsid] at hs2
        exact h sid s hs2
  | confirm sid' pid slot success eventId now =>
    intro sid s hs
    simp only [step] at hs
    rcases confirmDispense_findSession db sid' pid slot success eventId now sid with
      hc | ⟨hsid, s0, hs0, hc⟩
    · rw [hc] at hs
      exact h sid s hs
    · rw [hc] at hs
      cases hs
      intro hst
      exact absurd hst (hop s0 hs0)
  | expireSweep now =>
    intro sid s hs
    simp only [step] at hs
    rw [findSession_expire] at hs
    cases hf : findSession db sid with
    | none => rw [hf] at hs; cases hs
    | some s0 =>
      rw [hf] at hs
      cases hs
      unfold sweepSession
      split
      · intro hst
        have hst' : ("expired" : String) = "active" := hst
        exact absurd hst' (by decide)
      · exact h sid s0 hf
  | extend sid' now timeoutMs =>
    intro sid s hs
    simp only [step] at hs
    rcases extendSession_snd db sid' now timeoutMs with he | he
    · rw [he] at hs
      exact h sid s hs
    · rw [he] at hs
      rw [findSession_updateSession] at hs
      by_cases hsid : sid = sid'
      · rw [if_pos hsid] at hs
        cases hf : findSession db sid with
        | none => rw [hf] at hs; cases hs
        | some s1 =>
          rw [hf] at hs
          cases hs
          exact h sid s1 hf
      · rw [if_neg hsid] at hs
        exact h sid s hs

theorem steps_ActiveEmpty (db : DB) (ops : List Op)
    (h : ∀ sid s, findSession db sid = some s → ActiveEmpty s)
    (hops : SafeOps db ops) :
    ∀ sid s, findSession (steps db ops) sid = some s → ActiveEmpty s := by
  induction ops generalizing db with
  | nil => exact h
  | cons op rest ih =>
    exact ih _ (step_ActiveEmpty db op h hops.1) hops.2

/-- C7 counterexample: ConfirmDispense does not check the session status,
so against a still-active session it appends a dispensed item while the
status stays `active` — the invariant is not preserved by every operation
on every reachable state. -/
theorem active_empty_violated :
    findSession (step exDB (.confirm "s1" "p1" 5 true none 7)) "s1" =
      some (appendDispensed (mkDispensedItem "p1" 5 true 7) exSession) ∧
    (appendDispensed (mkDispensedItem "p1" 5 true 7) exSession).status = "active" ∧
    (appendDispensed (mkDispensedItem "p1" 5 true 7) exSession).dispensedItems ≠ [] := by
  decide

/-- C7 amended: every operation except ConfirmDispense unconditionally
preserves the invariant "while `status == active`, `dispensedItems` is
empty"; ConfirmDispense preserves it provided its target session is not
`active` — which holds in every run where ConfirmDispense is only invoked
for dispatch events, since those are created in the same commit that sets
the session to `completed`. -/
theorem active_empty_invariant (db : DB) (op : Op) (ops : List Op)
    (h : ∀ sid s, findSession db sid = some s → ActiveEmpty s)
    (hop : SafeOp db op) (hops : SafeOps db ops) :
    (∀ sid s, findSession (step db op) sid = some s → ActiveEmpty s) ∧
    (∀ sid s, findSession (steps db ops) sid = some s → ActiveEmpty s) :=
  ⟨step_ActiveEmpty db op h hop, steps_ActiveEmpty db ops h hops⟩

/-- C7 witness: confirming a dispatch of the completed example session
keeps the invariant. -/
theorem active_empty_invariant_witness :
    ActiveEmpty (appendDispensed (mkDispensedItem "p1" 5 true 7) exCompleted) := by
  have h0 : ∀ sid s, findSession exDB2 sid = some s → ActiveEmpty s := by
    intro sid s hs
    have := findSession_singleton "s1" exCompleted [exDispatch1, exDispatch2] [exInv] 12 sid s hs
    subst this
    intro hst
    exact absurd hst (by decide)
  have hsafe : SafeOp exDB2 (.confirm "s1" "p1" 5 true (some 10) 7) := by
    intro s hs
    have := findSession_singleton "s1" exCompleted [exDispatch1, exDispatch2] [exInv] 12 "s1" s hs
    subst this
    decide
  exact (active_empty_invariant exDB2 (.confirm "s1" "p1" 5 true (some 10) 7) [] h0
    hsafe trivial).1 "s1" (appendDispensed (mkDispensedItem "p1" 5 true 7) exCompleted)
    (by decide)

/-! ## Monotonicity of the resolution predicates (C8) -/

theorem countNonPending_arrayUnion (l : List DispensedItem) (x : DispensedItem) :
    countNonPending l ≤ countNonPending (arrayUnion l x) := by
  unfold arrayUnion
  split
  · exact Nat.le_refl _
  · unfold countNonPending
    rw [List.filter_append, List.length_append]
    exact Nat.le_add_right _ _

theorem confirm_session_mono (db : DB) (c : ConfirmCall) (sid : String) (s : Session)
    (hs : findSession db sid = some s) :
    ∃ s', findSession (confirmDispense db c.sessionId c.productId c.slot c.success
        c.eventId c.now).2 sid = some s' ∧
      s'.basket = s.basket ∧
      countNonPending s.dispensedItems ≤ countNonPending s'.dispensedItems := by
  rcases confirmDispense_findSession db c.sessionId c.productId c.slot c.success
      c.eventId c.now sid with hc | ⟨hsid, s0, hs0, hc⟩
  · refine ⟨s, ?_, rfl, Nat.le_refl _⟩
    rw [hc, hs]
  · subst hsid
    rw [hs] at hs0
    cases hs0
    exact ⟨_, hc, rfl, countNonPending_arrayUnion _ _⟩

theorem runConfirms_mono (db : DB) (calls : List ConfirmCall) (sid : String)
    (s : Session) (hs : findSession db sid = some s) :
    ∃ s', findSession (runConfirms db calls) sid = some s' ∧
      s'.basket = s.basket ∧
      countNonPending s.dispensedItems ≤ countNonPending s'.dispensedItems := by
  induction calls generalizing db s with
  | nil => exact ⟨s, hs, rfl, Nat.le_refl _⟩
  | cons c rest ih =>
    rcases confirm_session_mono db c sid s hs with ⟨s1, hs1, hb1, hc1⟩
    rcases ih _ _ hs1 with ⟨s', hs', hb', hc'⟩
    exact ⟨s', hs', hb'.trans hb1, Nat.le_trans hc1 hc'⟩

/-- C8 counterexample: on the resolved example session (basket of one
unit, one dispensed entry) the resolved-equality predicate holds, yet one
further ConfirmDispense with a fresh timestamp appends a second
non-pending entry and the equality becomes false — the predicate is not
monotonic. -/
theorem resolved_not_monotonic :
    resolvedEq exResolved ∧
    findSession (step exDB3 (.confirm "s1" "p1" 5 true none 9)) "s1" =
      some (appendDispensed (mkDispensedItem "p1" 5 true 9) exResolved) ∧
    ¬ resolvedEq (appendDispensed (mkDispensedItem "p1" 5 true 9) exResolved) := by
  refine ⟨?_, ?_, ?_⟩
  · exact (by decide : countNonPending exResolved.dispensedItems =
      totalQuantity exResolved.basket)
  · decide
  · intro hc
    have hneg : ¬ (countNonPending (appendDispensed (mkDispensedItem "p1" 5 true 9)
        exResolved).dispensedItems = totalQuantity (appendDispensed
        (mkDispensedItem "p1" 5 true 9) exResolved).basket) := by decide
    exact hneg hc

/-- C8 amended: under ConfirmDispense the basket is untouched and the
count of non-pending `dispensedItems` never decreases, so the weaker
predicate `count ≥ Σ basket.quantity` — the completion check the kiosk
actually runs — is monotonic across any sequence of ConfirmDispense
calls once it holds; the equality form of "resolved" is not monotonic,
since a duplicate confirmation with a fresh timestamp pushes the count
past `Σ quantity` (and a basket update can change `Σ quantity`). -/
theorem resolvedGe_monotonic (db : DB) (calls : List ConfirmCall) (sid : String)
    (s : Session) (hs : findSession db sid = some s) (hge : resolvedGe s) :
    ∃ s', findSession (runConfirms db calls) sid = some s' ∧ resolvedGe s' ∧
      s'.basket = s.basket ∧
      countNonPending s.dispensedItems ≤ countNonPending s'.dispensedItems := by
  rcases runConfirms_mono db calls sid s hs with ⟨s', hs', hb', hc'⟩
  refine ⟨s', hs', ?_, hb', hc'⟩
  unfold resolvedGe at *
  rw [hb']
  exact Nat.le_trans hge hc'

/-- C8 witness: the ≥ predicate survives a duplicate confirmation on the
resolved example session. -/
theorem resolvedGe_monotonic_witness :
    totalQuantity (appendDispensed (mkDispensedItem "p1" 5 true 9) exResolved).basket ≤
      countNonPending (appendDispensed (mkDispensedItem "p1" 5 true 9)
        exResolved).dispensedItems := by
  rcases resolvedGe_monotonic exDB3 [⟨"s1", "p1", 5, true, none, 9⟩] "s1" exResolved
      (by decide)
      ((by decide : totalQuantity exResolved.basket ≤
        countNonPending exResolved.dispensedItems)) with ⟨s', hs', hge', _, _⟩
  have hconc : findSession (runConfirms exDB3 [⟨"s1", "p1", 5, true, none, 9⟩]) "s1" =
      some (appendDispensed (mkDispensedItem "p1" 5 true 9) exResolved) := by decide
  rw [hconc] at hs'
  have hseq := Option.some.inj hs'
  rw [hseq]
  exact hge'

/-! ## Dispense controller: bounded retries, forced resolution (C9) -/

theorem processEvent_invocations (oracle : Nat → InvocationOutcome)
    (k retries errRetries : Nat) :
    (processEvent oracle k retries errRetries).invocations ≤
      (maxRetries - retries) + (maxErrorRetries - errRetries) + 1 := by
  induction k, retries, errRetries using processEvent.induct oracle with
  | case1 k r e h =>
    rw [processEvent, h]
    simp only [maxRetries, maxErrorRetries]
    omega
  | case2 k r e h hlt ih =>
    rw [processEvent, h]
    dsimp only
    rw [dif_pos hlt]
    simp only [maxRetries, maxErrorRetries] at *
    omega
  | case3 k r e h hlt =>
    rw [processEvent, h]
    dsimp only
    rw [dif_neg hlt]
    simp only [maxRetries, maxErrorRetries]
    omega
  | case4 k r e h hlt ih =>
    rw [processEvent, h]
    dsimp only
    rw [dif_pos hlt]
    simp only [maxRetries, maxErrorRetries] at *
    omega
  | case5 k r e h hlt =>
    rw [processEvent, h]
    dsimp only
    rw [dif_neg hlt]
    simp only [maxRetries, maxErrorRetries]
    omega

theorem processEvent_noExn (oracle : Nat → InvocationOutcome)
    (hno : ∀ k, oracle k ≠ .localExn) (k retries errRetries : Nat) :
    (processEvent oracle k retries errRetries).shipAttempts ≤ (maxRetries - retries) + 1 ∧
    ∃ b, (processEvent oracle k retries errRetries).resolution = .confirmed b := by
  induction k, retries, errRetries using processEvent.induct oracle with
  | case1 k r e h =>
    rw [processEvent, h]
    dsimp only
    exact ⟨by omega, true, rfl⟩
  | case2 k r e h hlt ih =>
    rw [processEvent, h]
    dsimp only
    rw [dif_pos hlt]
    refine ⟨?_, ih.2⟩
    have := ih.1
    simp only [maxRetries] at *
    omega
  | case3 k r e h hlt =>
    rw [processEvent, h]
    dsimp only
    rw [dif_neg hlt]
    dsimp only
    exact ⟨by omega, false, rfl⟩
  | case4 k r e h hlt ih => exact absurd h (hno k)
  | case5 k r e h hlt => exact absurd h (hno k)

theorem processEvent_allFail (oracle : Nat → InvocationOutcome)
    (hall : ∀ k, oracle k = .shipFail) (k retries errRetries : Nat) :
    (processEvent oracle k retries errRetries).resolution = .confirmed false := by
  induction k, retries, errRetries using processEvent.induct oracle with
  | case1 k r e h => rw [hall k] at h; cases h
  | case2 k r e h hlt ih =>
    rw [processEvent, h]
    dsimp only
    rw [dif_pos hlt]
    exact ih
  | case3 k r e h hlt =>
    rw [processEvent, h]
    dsimp only
    rw [dif_neg hlt]
  | case4 k r e h hlt ih => rw [hall k] at h; cases h
  | case5 k r e h hlt => rw [hall k] at h; cases h

theorem processEvent_allExn (oracle : Nat → InvocationOutcome)
    (hall : ∀ k, oracle k = .localExn) (k retries errRetries : Nat) :
    (processEvent oracle k retries errRetries).resolution = .forcedFailed := by
  induction k, retries, errRetries using processEvent.induct oracle with
  | case1 k r e h => rw [hall k] at h; cases h
  | case2 k r e h hlt ih => rw [hall k] at h; cases h
  | case3 k r e h hlt => rw [hall k] at h; cases h
  | case4 k r e h hlt ih =>
    rw [processEvent, h]
    dsimp only
    rw [dif_pos hlt]
    exact ih
  | case5 k r e h hlt =>
    rw [processEvent, h]
    dsimp only
    rw [dif_neg hlt]

/-- C9 counterexample: the local-exception retry bound (`maxErrorRetries =
3`) is larger, not smaller, than the actuator-failure retry bound
(`maxRetries = 2`), and the backoff delays `2·(n+1)` seconds grow
linearly (2, 4, 6), not exponentially. -/
theorem error_retry_bound_not_smaller :
    maxRetries = 2 ∧ maxErrorRetries = 3 ∧ ¬ maxErrorRetries < maxRetries ∧
    errorBackoffDelay 0 = 2 ∧ errorBackoffDelay 1 = 4 ∧ errorBackoffDelay 2 = 6 ∧
    errorBackoffDelay 2 ≠ 2 * errorBackoffDelay 1 := by
  decide

/-- C9 amended: processing of a head dispatch event always terminates in a
resolution, never a silent drop — at most `maxRetries + maxErrorRetries +
1` loop invocations in total; when no local exception occurs, at most
`maxRetries + 1 = 3` actuator attempts are made and the event is confirmed
(with outcome `failed` when every attempt fails); a local exception is
retried up to a separate bound `maxErrorRetries = 3` — larger, not
smaller, than the 2 actuator retries — with linearly increasing
(`2·(n+1)` s) backoff delays, after which the event is force-resolved as
failed and the queue proceeds. -/
theorem dispense_controller_resolution (oracle : Nat → InvocationOutcome) :
    ((processEvent oracle 0 0 0).invocations ≤ maxRetries + maxErrorRetries + 1) ∧
    ((∀ k, oracle k ≠ .localExn) →
      (processEvent oracle 0 0 0).shipAttempts ≤ maxRetries + 1 ∧
      ∃ b, (processEvent oracle 0 0 0).resolution = .confirmed b) ∧
    ((∀ k, oracle k = .shipFail) →
      (processEvent oracle 0 0 0).resolution = .confirmed false) ∧
    ((∀ k, oracle k = .localExn) →
      (processEvent oracle 0 0 0).resolution = .forcedFailed) ∧
    (∀ n, errorBackoffDelay n = 2 * (n + 1)) := by
  refine ⟨?_, ?_, ?_, ?_, fun n => rfl⟩
  · simpa using processEvent_invocations oracle 0 0 0
  · intro hno
    simpa using processEvent_noExn oracle hno 0 0 0
  · intro hall
    exact processEvent_allFail oracle hall 0 0 0
  · intro hall
    exact processEvent_allExn oracle hall 0 0 0

/-- C9 witness: the always-failing actuator leads to a confirmed-failed
resolution within three attempts, and the always-throwing environment to a
forced failure. -/
theorem dispense_controller_resolution_witness :
    (processEvent (fun _ => .shipFail) 0 0 0).resolution = .confirmed false ∧
    (processEvent (fun _ => .localExn) 0 0 0).resolution = .forcedFailed ∧
    (processEvent (fun _ => .shipFail) 0 0 0).shipAttempts ≤ maxRetries + 1 :=
  ⟨(dispense_controller_resolution (fun _ => .shipFail)).2.2.1 (fun _ => rfl),
   (dispense_controller_resolution (fun _ => .localExn)).2.2.2.1 (fun _ => rfl),
   ((dispense_controller_resolution (fun _ => .shipFail)).2.1
     (fun _ h => InvocationOutcome.noConfusion h)).1⟩

/-! ## Confirmation handler characterization (C3, C10) -/

theorem confirmDispense_run (db : DB) (sid pid : String) (slot : Int)
    (success : Bool) (eid now : Nat) (s : Session) (ev : Event)
    (hslot : ¬(slot < 0 ∨ 99 < slot))
    (hev : findEvent db eid = some ev) (hnp : ev.processed = false)
    (hs : findSession db sid = some s) :
    confirmDispense db sid pid slot success (some eid) now =
      if success then
        confirmInventoryStep (postCommit db sid pid slot success eid now s) s sid slot now
      else
        confirmRefundStep (postCommit db sid pid slot success eid now s) s sid pid slot now := by
  unfold confirmDispense postCommit
  rw [if_neg hslot]
  simp only [hev, hnp, hs, Option.any_some, Option.isNone_some, Bool.false_eq_true,
    if_false]

theorem confirmDispense_alreadyProcessed (db : DB) (sid pid : String) (slot : Int)
    (success : Bool) (eid : Nat) (now : Nat) (ev : Event)
    (hslot : ¬(slot < 0 ∨ 99 < slot))
    (hev : findEvent db eid = some ev) (hp : ev.processed = true) :
    confirmDispense db sid pid slot success (some eid) now = (.ok ⟨true, true⟩, db) := by
  unfold confirmDispense
  rw [if_neg hslot]
  simp only [hev, hp, if_true]

theorem appendDispensed_not_mem (item : DispensedItem) (s : Session)
    (h : item ∉ s.dispensedItems) :
    (appendDispensed item s).dispensedItems = s.dispensedItems ++ [item] := by
  unfold appendDispensed arrayUnion
  dsimp only
  rw [if_neg h]

theorem appendDispensed_mem (item : DispensedItem) (s : Session)
    (h : item ∈ s.dispensedItems) : appendDispensed item s = s := by
  unfold appendDispensed arrayUnion
  rw [if_pos h]

theorem findEvent_markProcessed (db : DB) (eid eid' : Nat) :
    findEvent (markProcessed db eid) eid' =
      (findEvent db eid').map (flipProcessed eid) := by
  unfold findEvent markProcessed
  rw [List.find?_map]
  have hcomp : ((fun e : Event => e.id == eid') ∘ flipProcessed eid) =
      (fun e : Event => e.id == eid') := by
    funext e
    simp only [Function.comp_apply]
    unfold flipProcessed
    split <;> rfl
  rw [hcomp]

theorem findEvent_addEvent_of_some (db : DB) (mk : Nat → Event) (eid : Nat)
    (e : Event) (h : findEvent db eid = some e) :
    findEvent (addEvent db mk) eid = some e := by
  unfold findEvent addEvent at *
  dsimp only
  rw [List.find?_append, h]
  rfl

theorem findEvent_postCommit (db : DB) (sid pid : String) (slot : Int)
    (success : Bool) (eid now : Nat) (session : Session) (eid' : Nat) (e : Event)
    (h : findEvent db eid' = some e) :
    findEvent (postCommit db sid pid slot success eid now session) eid' =
      some (flipProcessed eid e) := by
  unfold postCommit
  apply findEvent_addEvent_of_some
  rw [findEvent_markProcessed]
  have hu : findEvent (updateSession db sid
      (appendDispensed (mkDispensedItem pid slot success now))) eid' =
      findEvent db eid' := rfl
  rw [hu, h]
  rfl

theorem confirmInventoryStep_findEvent (db : DB) (session : Session) (sid : String)
    (slot : Int) (now : Nat) (eid' : Nat) (e : Event)
    (h : findEvent db eid' = some e) :
    findEvent (confirmInventoryStep db session sid slot now).2 eid' = some e := by
  unfold confirmInventoryStep
  dsimp only
  repeat' split
  all_goals try exact h
  all_goals exact findEvent_addEvent_of_some _ _ _ _ h

theorem confirmRefundStep_findEvent (db : DB) (session : Session) (sid pid : String)
    (slot : Int) (now : Nat) (eid' : Nat) (e : Event)
    (h : findEvent db eid' = some e) :
    findEvent (confirmRefundStep db session sid pid slot now).2 eid' = some e := by
  unfold confirmRefundStep
  split
  · exact h
  · exact findEvent_addEvent_of_some _ _ _ _ h

theorem findSession_postCommit (db : DB) (sid pid : String) (slot : Int)
    (success : Bool) (eid now : Nat) (session : Session) (sid' : String) :
    findSession (postCommit db sid pid slot success eid now session) sid' =
      findSession (updateSession db sid
        (appendDispensed (mkDispensedItem pid slot success now))) sid' := rfl

theorem filter_flip_len (events : List Event) (eid : Nat) (p : Event → Bool)
    (hp : ∀ e, p (flipProcessed eid e) = p e) :
    ((events.map (flipProcessed eid)).filter p).length = (events.filter p).length := by
  induction events with
  | nil => rfl
  | cons e rest ih =>
    simp only [List.map_cons, List.filter_cons, hp e]
    split
    · simp only [List.length_cons, ih]
    · exact ih

theorem countOutcome_addEvent (db : DB) (mk : Nat → Event) :
    countOutcome (addEvent db mk) =
      countOutcome db + (if isOutcomeType (mk db.nextEventId) then 1 else 0) := by
  unfold countOutcome addEvent
  dsimp only
  rw [List.filter_append, List.length_append]
  cases hp : isOutcomeType (mk db.nextEventId) <;> simp [List.filter, hp]

theorem countRefund_addEvent (db : DB) (mk : Nat → Event) :
    countRefund (addEvent db mk) =
      countRefund db + (if isRefundType (mk db.nextEventId) then 1 else 0) := by
  unfold countRefund addEvent
  dsimp only
  rw [List.filter_append, List.length_append]
  cases hp : isRefundType (mk db.nextEventId) <;> simp [List.filter, hp]

theorem countOutcome_postCommit (db : DB) (sid pid : String) (slot : Int)
    (success : Bool) (eid now : Nat) (session : Session) :
    countOutcome (postCommit db sid pid slot success eid now session) =
      countOutcome db + 1 := by
  unfold postCommit
  rw [countOutcome_addEvent]
  have hm : countOutcome (markProcessed (updateSession db sid
      (appendDispensed (mkDispensedItem pid slot success now))) eid) = countOutcome db := by
    unfold countOutcome markProcessed
    dsimp only
    exact filter_flip_len db.events eid isOutcomeType
      (fun e => by unfold flipProcessed isOutcomeType; split <;> rfl)
  rw [hm]
  have ho : isOutcomeType (mkOutcomeEvent sid session.vendingMachineId pid slot success
      now (markProcessed (updateSession db sid (appendDispensed
        (mkDispensedItem pid slot success now))) eid).nextEventId) = true := by
    unfold isOutcomeType mkOutcomeEvent
    cases success <;> rfl
  rw [ho]
  rfl

theorem countRefund_postCommit (db : DB) (sid pid : String) (slot : Int)
    (success : Bool) (eid now : Nat) (session : Session) :
    countRefund (postCommit db sid pid slot success eid now session) =
      countRefund db := by
  unfold postCommit
  rw [countRefund_addEvent]
  have hm : countRefund (markProcessed (updateSession db sid
      (appendDispensed (mkDispensedItem pid slot success now))) eid) = countRefund db := by
    unfold countRefund markProcessed
    dsimp only
    exact filter_flip_len db.events eid isRefundType
      (fun e => by unfold flipProcessed isRefundType; split <;> rfl)
  rw [hm]
  have ho : isRefundType (mkOutcomeEvent sid session.vendingMachineId pid slot success
      now (markProcessed (updateSession db sid (appendDispensed
        (mkDispensedItem pid slot success now))) eid).nextEventId) = false := by
    unfold isRefundType mkOutcomeEvent
    cases success <;> rfl
  rw [ho]
  rfl

theorem countOutcome_stockLow (db : DB) (sid mid pid : String) (q : Int) (now : Nat) :
    countOutcome (addEvent db (fun eid => mkStockLowEvent sid mid pid q now eid)) =
      countOutcome db := by
  rw [countOutcome_addEvent]
  rfl

theorem countRefund_stockLow (db : DB) (sid mid pid : String) (q : Int) (now : Nat) :
    countRefund (addEvent db (fun eid => mkStockLowEvent sid mid pid q now eid)) =
      countRefund db := by
  rw [countRefund_addEvent]
  rfl

theorem countOutcome_refundEvent (db : DB) (sid mid pid pname : String) (slot : Int)
    (amount : Int) (now : Nat) :
    countOutcome (addEvent db
      (fun eid => mkRefundEvent sid mid pid pname slot amount now eid)) =
      countOutcome db := by
  rw [countOutcome_addEvent]
  rfl

theorem countRefund_refundEvent (db : DB) (sid mid pid pname : String) (slot : Int)
    (amount : Int) (now : Nat) :
    countRefund (addEvent db
      (fun eid => mkRefundEvent sid mid pid pname slot amount now eid)) =
      countRefund db + 1 := by
  rw [countRefund_addEvent]
  rfl

theorem confirmInventoryStep_counts (db : DB) (session : Session) (sid : String)
    (slot : Int) (now : Nat) :
    countOutcome (confirmInventoryStep db session sid slot now).2 = countOutcome db ∧
    countRefund (confirmInventoryStep db session sid slot now).2 = countRefund db := by
  unfold confirmInventoryStep
  dsimp only
  repeat' split
  all_goals first
  | exact ⟨rfl, rfl⟩
  | exact ⟨countOutcome_stockLow _ _ _ _ _ _, countRefund_stockLow _ _ _ _ _ _⟩

theorem confirmRefundStep_counts (db : DB) (session : Session) (sid pid : String)
    (slot : Int) (now : Nat) :
    countOutcome (confirmRefundStep db session sid pid slot now).2 = countOutcome db ∧
    countRefund (confirmRefundStep db session sid pid slot now).2 ≤ countRefund db + 1 := by
  unfold confirmRefundStep
  split
  · exact ⟨rfl, Nat.le_succ _⟩
  · exact ⟨countOutcome_refundEvent _ _ _ _ _ _ _ _,
      Nat.le_of_eq (countRefund_refundEvent _ _ _ _ _ _ _ _)⟩

theorem confirmInventoryStep_decrement (db : DB) (session : Session) (sid : String)
    (slot : Int) (now : Nat) (r : Inventory)
    (hr : findInventory db slot = some r) (hq : 0 < r.quantity) :
    (confirmInventoryStep db session sid slot now).2.inventory =
      decrementSlot now slot db.inventory := by
  unfold confirmInventoryStep
  rw [hr]
  try dsimp only
  rw [if_neg (by omega)]
  try dsimp only
  split
  · rfl
  · rfl

theorem findInventory_decrementSlot (l : List Inventory) (slot : Int) (now : Nat)
    (r : Inventory) (hr : l.find? (fun x => x.slot == slot) = some r) :
    (decrementSlot now slot l).find? (fun x => x.slot == slot) =
      some { r with quantity := r.quantity - 1, updatedAt := now } := by
  induction l with
  | nil => simp at hr
  | cons hd tl ih =>
    by_cases hhd : hd.slot = slot
    · have hr' : hd = r := by
        rw [List.find?_cons_of_pos _ (by simpa using hhd)] at hr
        exact Option.some.inj hr
      unfold decrementSlot
      rw [if_pos (by simpa using hhd)]
      rw [List.find?_cons_of_pos _ (by simpa using hhd)]
      rw [hr']
    · rw [List.find?_cons_of_neg _ (by simpa using hhd)] at hr
      unfold decrementSlot
      rw [if_neg (by simpa using hhd)]
      rw [List.find?_cons_of_neg _ (by simpa using hhd)]
      exact ih hr

theorem confirmInventoryStep_fst (db : DB) (session : Session) (sid : String)
    (slot : Int) (now : Nat) :
    (confirmInventoryStep db session sid slot now).1 = .ok ⟨true, false⟩ := by
  unfold confirmInventoryStep
  dsimp only
  repeat' split
  all_goals rfl

theorem confirmRefundStep_fst (db : DB) (session : Session) (sid pid : String)
    (slot : Int) (now : Nat)
    (h : (session.basket.find? (fun it => it.productId == pid)).isSome) :
    (confirmRefundStep db session sid pid slot now).1 = .ok ⟨true, false⟩ := by
  unfold confirmRefundStep
  split
  next hn => rw [hn] at h; simp at h
  · rfl

theorem confirmDispense_effects (db : DB) (sid pid : String) (slot : Int)
    (success : Bool) (eid now : Nat) (s : Session) (ev : Event)
    (hslot : ¬(slot < 0 ∨ 99 < slot))
    (hev : findEvent db eid = some ev) (hnp : ev.processed = false)
    (hs : findSession db sid = some s)
    (hbk : success = false → (s.basket.find? (fun it => it.productId == pid)).isSome) :
    (confirmDispense db sid pid slot success (some eid) now).1 = .ok ⟨true, false⟩ ∧
    findSession (confirmDispense db sid pid slot success (some eid) now).2 sid =
      some (appendDispensed (mkDispensedItem pid slot success now) s) ∧
    findEvent (confirmDispense db sid pid slot success (some eid) now).2 eid =
      some { ev with processed := true } ∧
    (∀ eid' e', eid' ≠ eid → findEvent db eid' = some e' →
      findEvent (confirmDispense db sid pid slot success (some eid) now).2 eid' = some e') ∧
    countOutcome (confirmDispense db sid pid slot success (some eid) now).2 =
      countOutcome db + 1 ∧
    countRefund (confirmDispense db sid pid slot success (some eid) now).2 ≤
      countRefund db + 1 ∧
    (∀ r, findInventory db slot = some r → 0 < r.quantity → success = true →
      findInventory (confirmDispense db sid pid slot success (some eid) now).2 slot =
        some { r with quantity := r.quantity - 1, updatedAt := now }) := by
  have hrun := confirmDispense_run db sid pid slot success eid now s ev hslot hev hnp hs
  have hid : ev.id = eid := by
    have := List.find?_some hev
    simpa using this
  have hflip : flipProcessed eid ev = { ev with processed := true } := by
    unfold flipProcessed
    rw [if_pos (by simpa using hid)]
  have hevP : findEvent (postCommit db sid pid slot success eid now s) eid =
      some { ev with processed := true } := by
    rw [findEvent_postCommit db sid pid slot success eid now s eid ev hev, hflip]
  have hothP : ∀ eid' e', eid' ≠ eid → findEvent db eid' = some e' →
      findEvent (postCommit db sid pid slot success eid now s) eid' = some e' := by
    intro eid' e' hne' hev'
    have hid' : e'.id = eid' := by
      have := List.find?_some hev'
      simpa using this
    have hfl : flipProcessed eid e' = e' := by
      unfold flipProcessed
      rw [if_neg (by simp [hid', hne'])]
    rw [findEvent_postCommit db sid pid slot success eid now s eid' e' hev', hfl]
  have hsessP : findSession (postCommit db sid pid slot success eid now s) sid =
      some (appendDispensed (mkDispensedItem pid slot success now) s) := by
    rw [findSession_postCommit, findSession_updateSession_self, hs]
    rfl
  cases success with
  | true =>
    rw [if_pos rfl] at hrun
    rw [hrun]
    refine ⟨confirmInventoryStep_fst _ _ _ _ _, ?_,
      confirmInventoryStep_findEvent _ _ _ _ _ _ _ hevP, ?_, ?_, ?_, ?_⟩
    · rw [findSession_congr _ _ (confirmInventoryStep_sessions _ _ _ _ _)]
      exact hsessP
    · intro eid' e' hne' hev'
      exact confirmInventoryStep_findEvent _ _ _ _ _ _ _ (hothP eid' e' hne' hev')
    · rw [(confirmInventoryStep_counts _ _ _ _ _).1]
      exact countOutcome_postCommit db sid pid slot true eid now s
    · rw [(confirmInventoryStep_counts _ _ _ _ _).2]
      rw [countRefund_postCommit db sid pid slot true eid now s]
      exact Nat.le_succ _
    · intro r hr hq _
      have hdec := confirmInventoryStep_decrement
        (postCommit db sid pid slot true eid now s) s sid slot now r hr hq
      show ((confirmInventoryStep (postCommit db sid pid slot true eid now s)
        s sid slot now).2.inventory.find? (fun x => x.slot == slot)) = _
      rw [hdec]
      exact findInventory_decrementSlot db.inventory slot now r hr
  | false =>
    rw [if_neg (by simp)] at hrun
    rw [hrun]
    refine ⟨confirmRefundStep_fst _ _ _ _ _ _ (hbk rfl), ?_,
      confirmRefundStep_findEvent _ _ _ _ _ _ _ _ hevP, ?_, ?_, ?_, ?_⟩
    · rw [findSession_congr _ _ (confirmRefundStep_sessions _ _ _ _ _ _)]
      exact hsessP
    · intro eid' e' hne' hev'
      exact confirmRefundStep_findEvent _ _ _ _ _ _ _ _ (hothP eid' e' hne' hev')
    · rw [(confirmRefundStep_counts _ _ _ _ _ _).1]
      exact countOutcome_postCommit db sid pid slot false eid now s
    · have := (confirmRefundStep_counts (postCommit db sid pid slot false eid now s)
        s sid pid slot now).2
      rw [countRefund_postCommit db sid pid slot false eid now s] at this
      exact this
    · intro r hr hq habs
      exact absurd habs (by decide)

/-- C3: ConfirmDispense is idempotent in `eventId`: from any state in
which the referenced event is unprocessed and the session exists (and the
fresh-timestamped dispensed item is not already present), the first call
succeeds, appends exactly one `dispensedItems` entry, marks the event
processed, appends exactly one `DispenseSuccess`/`DispenseFailed` event
and at most one `RefundRequested` event, and decrements the inventory slot
exactly once when the dispense succeeded; a second call with the same
`eventId` returns success with `alreadyProcessed = true` and re-applies no
effects — the store is returned unchanged. -/
theorem confirm_dispense_idempotent (db : DB) (sid pid : String) (slot : Int)
    (success : Bool) (eid now now' : Nat) (s : Session) (ev : Event)
    (hslot : ¬(slot < 0 ∨ 99 < slot))
    (hev : findEvent db eid = some ev) (hnp : ev.processed = false)
    (hs : findSession db sid = some s)
    (hfresh : mkDispensedItem pid slot success now ∉ s.dispensedItems)
    (hbk : success = false → (s.basket.find? (fun it => it.productId == pid)).isSome) :
    (confirmDispense db sid pid slot success (some eid) now).1 = .ok ⟨true, false⟩ ∧
    findSession (confirmDispense db sid pid slot success (some eid) now).2 sid =
      some (appendDispensed (mkDispensedItem pid slot success now) s) ∧
    (appendDispensed (mkDispensedItem pid slot success now) s).dispensedItems =
      s.dispensedItems ++ [mkDispensedItem pid slot success now] ∧
    findEvent (confirmDispense db sid pid slot success (some eid) now).2 eid =
      some { ev with processed := true } ∧
    confirmDispense (confirmDispense db sid pid slot success (some eid) now).2
        sid pid slot success (some eid) now' =
      (.ok ⟨true, true⟩, (confirmDispense db sid pid slot success (some eid) now).2) ∧
    countOutcome (confirmDispense db sid pid slot success (some eid) now).2 =
      countOutcome db + 1 ∧
    countRefund (confirmDispense db sid pid slot success (some eid) now).2 ≤
      countRefund db + 1 ∧
    (success = true → ∀ r, findInventory db slot = some r → 0 < r.quantity →
      findInventory (confirmDispense db sid pid slot success (some eid) now).2 slot =
        some { r with quantity := r.quantity - 1, updatedAt := now }) := by
  rcases confirmDispense_effects db sid pid slot success eid now s ev hslot hev hnp hs hbk
    with ⟨h1, h2, h3, _, h5, h6, h7⟩
  refine ⟨h1, h2, appendDispensed_not_mem _ _ hfresh, h3, ?_, h5, h6,
    fun hsu r hr hq => h7 r hr hq hsu⟩
  exact confirmDispense_alreadyProcessed _ sid pid slot success eid now'
    { ev with processed := true } hslot h3 rfl

/-- C3 witness: confirming the first dispatch event of the example store
succeeds, and a retry with the same event id reports `alreadyProcessed`
and changes nothing. -/
theorem confirm_dispense_idempotent_witness :
    (confirmDispense exDB2 "s1" "p1" 5 true (some 10) 7).1 = .ok ⟨true, false⟩ ∧
    confirmDispense (confirmDispense exDB2 "s1" "p1" 5 true (some 10) 7).2
        "s1" "p1" 5 true (some 10) 9 =
      (.ok ⟨true, true⟩, (confirmDispense exDB2 "s1" "p1" 5 true (some 10) 7).2) := by
  have hmain := confirm_dispense_idempotent exDB2 "s1" "p1" 5 true 10 7 9
    exCompleted exDispatch1 (by decide) (by decide) (by decide) (by decide) (by decide)
    (fun h => by cases h)
  exact ⟨hmain.1, hmain.2.2.2.2.1⟩

theorem countNonPending_append_item (l : List DispensedItem) (pid : String)
    (slot : Int) (success : Bool) (now : Nat) :
    countNonPending (l ++ [mkDispensedItem pid slot success now]) =
      countNonPending l + 1 := by
  unfold countNonPending
  rw [List.filter_append, List.length_append]
  congr 1
  cases success <;> rfl

/-- C10 (implicit): if two ConfirmDispense calls reference two distinct
dispatch events but carry identical `productId`, `slot` and `success`
value and are assigned the same server timestamp, the session's
`dispensedItems` gains only one entry across the two calls — `arrayUnion`
drops the element identical to the existing one — while both events are
marked processed; the count of non-pending entries therefore stays one
below what two units require, and when it remains below
`Σ basket.quantity` the kiosk's completion check `_isComplete` never
fires. -/
theorem duplicate_confirms_collapse (db : DB) (sid pid : String) (slot : Int)
    (success : Bool) (eid1 eid2 now : Nat) (s : Session) (ev1 ev2 : Event)
    (hslot : ¬(slot < 0 ∨ 99 < slot)) (hne : eid2 ≠ eid1)
    (hev1 : findEvent db eid1 = some ev1) (hnp1 : ev1.processed = false)
    (hev2 : findEvent db eid2 = some ev2) (hnp2 : ev2.processed = false)
    (hs : findSession db sid = some s)
    (hfresh : mkDispensedItem pid slot success now ∉ s.dispensedItems)
    (hbk : success = false → (s.basket.find? (fun it => it.productId == pid)).isSome) :
    findSession (confirmDispense
        (confirmDispense db sid pid slot success (some eid1) now).2
        sid pid slot success (some eid2) now).2 sid =
      some (appendDispensed (mkDispensedItem pid slot success now) s) ∧
    (appendDispensed (mkDispensedItem pid slot success now) s).dispensedItems =
      s.dispensedItems ++ [mkDispensedItem pid slot success now] ∧
    findEvent (confirmDispense
        (confirmDispense db sid pid slot success (some eid1) now).2
        sid pid slot success (some eid2) now).2 eid1 =
      some { ev1 with processed := true } ∧
    findEvent (confirmDispense
        (confirmDispense db sid pid slot success (some eid1) now).2
        sid pid slot success (some eid2) now).2 eid2 =
      some { ev2 with processed := true } ∧
    countNonPending (appendDispensed (mkDispensedItem pid slot success now)
        s).dispensedItems = countNonPending s.dispensedItems + 1 ∧
    (countNonPending s.dispensedItems + 1 < totalQuantity s.basket →
      isComplete (appendDispensed (mkDispensedItem pid slot success now) s) = false) := by
  rcases confirmDispense_effects db sid pid slot success eid1 now s ev1 hslot hev1 hnp1
    hs hbk with ⟨_, hs1, hevA, hoth1, _, _, _⟩
  have hev2' := hoth1 eid2 ev2 hne hev2
  have hbk1 : success = false →
      ((appendDispensed (mkDispensedItem pid slot success now) s).basket.find?
        (fun it => it.productId == pid)).isSome := hbk
  rcases confirmDispense_effects
    (confirmDispense db sid pid slot success (some eid1) now).2 sid pid slot success
    eid2 now (appendDispensed (mkDispensedItem pid slot success now) s) ev2 hslot
    hev2' hnp2 hs1 hbk1 with ⟨_, hs2, hevB, hoth2, _, _, _⟩
  have hmem : mkDispensedItem pid slot success now ∈
      (appendDispensed (mkDispensedItem pid slot success now) s).dispensedItems := by
    rw [appendDispensed_not_mem _ _ hfresh]
    exact List.mem_append_right _ (List.mem_singleton_self _)
  have hcollapse := appendDispensed_mem _ _ hmem
  refine ⟨?_, appendDispensed_not_mem _ _ hfresh, ?_, hevB, ?_, ?_⟩
  · rw [hcollapse] at hs2
    exact hs2
  · exact hoth2 eid1 { ev1 with processed := true } (fun h => hne h.symm) hevA
  · rw [appendDispensed_not_mem _ _ hfresh]
    exact countNonPending_append_item s.dispensedItems pid slot success now
  · intro hlt
    have hnot : ¬ (totalQuantity (appendDispensed (mkDispensedItem pid slot success now)
        s).basket ≤ countNonPending (appendDispensed (mkDispensedItem pid slot success now)
        s).dispensedItems) := by
      have hb : (appendDispensed (mkDispensedItem pid slot success now) s).basket =
          s.basket := rfl
      have hc : countNonPending (appendDispensed (mkDispensedItem pid slot success now)
          s).dispensedItems = countNonPending s.dispensedItems + 1 := by
        rw [appendDispensed_not_mem _ _ hfresh]
        exact countNonPending_append_item _ _ _ _ _
      rw [hb, hc]
      omega
    exact decide_eq_false hnot

/-- C10 witness: confirming the two dispatch events of the example
checkout (quantity 2) with equal timestamps leaves a single dispensed
entry and an incomplete session. -/
theorem duplicate_confirms_collapse_witness :
    findSession (confirmDispense (confirmDispense exDB2 "s1" "p1" 5 true (some 10) 7).2
        "s1" "p1" 5 true (some 11) 7).2 "s1" =
      some (appendDispensed (mkDispensedItem "p1" 5 true 7) exCompleted) ∧
    isComplete (appendDispensed (mkDispensedItem "p1" 5 true 7) exCompleted) = false := by
  have hmain := duplicate_confirms_collapse exDB2 "s1" "p1" 5 true 10 11 7 exCompleted
    exDispatch1 exDispatch2 (by decide) (by decide) (by decide) (by decide) (by decide)
    (by decide) (by decide) (by decide) (fun h => by cases h)
  exact ⟨hmain.1, hmain.2.2.2.2.2 (by decide)⟩

end SCVending
